import Mathlib

/-!
# The Atlas Cloud API client

A shallow embedding of `cmd/atlas/internal/cloudapi/client.go`: the constructor
`New`, the header-setting `roundTripper.RoundTrip`, the query primitive
`Client.post` and the one operation built on it, `Client.Dir`.

What the Go code takes from libraries is modelled as follows.

* `encoding/json` works on trees here: `json.Marshal` produces a `Json` value
  and `json.Decoder.Decode` consumes a `Body`, which records what the decoder's
  reader finds in the response bytes (nothing but white space, a cut-off value,
  bytes that are not JSON, or one complete JSON value). Storing a JSON value
  into a Go value follows the rules of `encoding/json`: an object's members
  are visited in order, a member name selects a field by case folding, unknown
  members are skipped, `null` leaves structs alone and clears slices,
  pointers and interfaces, a `[]byte` is read from a base64 string or from an
  array of numbers, and a value of the wrong kind records an
  `UnmarshalTypeError` and decoding carries on.
* `http.Client.Do`, `http.NewRequestWithContext` (its verdict on the endpoint
  URL), `http.DefaultTransport` and `migrate.UnarchiveDir` are parameters.
  `Client.post` is stated over any behaviour of `http.Client.Do` (`Env`); what
  `http.Client.Do` does with its transport (the hops it makes, the
  `*url.Error` it wraps a failure in) is modelled in `httpDo` over a `Net`,
  which gives an `Env`.
* Calls are logged in a `Trace` as they are made: a request handed to
  `http.Client.Do`, the requests that call hands to the inner transport, and a
  byte slice handed to `migrate.UnarchiveDir`.
* The entries of `gqlerror.List` belong to the gqlparser library; their type
  and their decoding are parameters as well.
* Go strings are Lean strings (valid Unicode), a `[]byte` is a list of bytes
  (a nil slice and an empty one are not told apart), and `int` is `Int`. A
  slice that a JSON array is stored into keeps, next to its elements, what its
  backing array holds past its length (`spare`): `encoding/json` (Go 1.21 and
  later) regrows a slice over that memory.
* The `context.Context` is not modelled: a cancelled or expired context shows
  as an error of `http.Client.Do`, like every other failure of the round trip,
  and `http.Client.Do` is one call whatever it does inside.
-/

namespace Cloudapi

/-- One byte of a Go byte slice. -/
abbrev Byte := Fin 256

/-- A JSON value. A number keeps its literal; an object keeps its members in
the order of the text, repeated names included. -/
inductive Json where
  | null
  | bool (b : Bool)
  | num (lit : String)
  | str (s : String)
  | arr (items : List Json)
  | obj (members : List (String × Json))

/-- Whether a JSON value is the literal `null`. -/
def Json.isNull : Json → Bool
  | .null => true
  | _ => false

/-- Whether a JSON value is an object. -/
def Json.isObject : Json → Bool
  | .obj _ => true
  | _ => false

/-- Whether a JSON value is an array. -/
def Json.isArray : Json → Bool
  | .arr _ => true
  | _ => false

/-- Whether a JSON value is a string. -/
def Json.isString : Json → Bool
  | .str _ => true
  | _ => false

/-- Whether a JSON value is a number. -/
def Json.isNumber : Json → Bool
  | .num _ => true
  | _ => false

/-- The word `encoding/json` uses for a JSON value in an `UnmarshalTypeError`. -/
def Json.kind : Json → String
  | .null => "null"
  | .bool _ => "bool"
  | .num _ => "number"
  | .str _ => "string"
  | .arr _ => "array"
  | .obj _ => "object"

/-- Go error values that are not a `gqlerror.List`. -/
inductive GoError where
  /-- The value `io.EOF`. -/
  | eof
  /-- The value `io.ErrUnexpectedEOF`. -/
  | unexpectedEOF
  /-- A `*json.SyntaxError`. -/
  | malformedJSON (msg : String)
  /-- A `*json.UnmarshalTypeError`: a JSON value of kind `value` met the Go
  value `target`. -/
  | unmarshalType (value : String) (target : String)
  /-- A `base64.CorruptInputError`. -/
  | corruptInput
  /-- An error made by `fmt.Errorf` or `errors.New` with this text. -/
  | errorf (msg : String)
  /-- A `tls.RecordHeaderError` whose `RecordHeader` reads as this text. -/
  | tlsRecordHeader (header : String)
  /-- A `*url.Error` with this `Op` and `Err`, which it unwraps to; its `URL`
  is not modelled. -/
  | urlError (op : String) (err : GoError)
  /-- The timeout error `http.Client` puts in the place of `cause` when its
  `Timeout` has fired: the text of `cause` followed by
  " (Client.Timeout exceeded while awaiting headers)". It does not unwrap. -/
  | clientTimeout (cause : GoError)
  /-- Any other error, named by a tag: what a transport, `json.Marshal`,
  a library unmarshaler or `migrate.UnarchiveDir` fails with. -/
  | other (tag : String)
  deriving DecidableEq, Repr

/-- The test `errors.Is(err, io.EOF)`. -/
def GoError.isEOF : GoError → Bool
  | .eof => true
  | .urlError _ e => e.isEOF
  | _ => false

/-- What `post` or `Dir` returns as its error: a plain error or the decoded
`gqlerror.List`, whose entries are pointers (`none` is a nil entry). -/
inductive Failure (E : Type) where
  | err (e : GoError)
  | domain (entries : List (Option E))
  deriving DecidableEq, Repr

/-- The response body as `json.Decoder` reads it. -/
inductive Body where
  /-- The body is `n` bytes of JSON white space and nothing else; `blank 0` is
  the empty body. -/
  | blank (n : Nat)
  /-- The body ends before its first JSON value is complete. -/
  | truncated
  /-- The body has a byte that cannot go on a JSON text before its first JSON
  value is complete. -/
  | malformed (msg : String)
  /-- After white space, if any, the body holds the complete JSON value `j`.
  The decoder stops reading there: whatever bytes follow `j`, JSON or not, play
  no part. -/
  | value (j : Json)

/-- The number of bytes is zero. -/
def Body.isEmpty : Body → Bool
  | .blank 0 => true
  | _ => false

/-- The result of storing a JSON value: the Go value afterwards, the first
error recorded by `saveError` on the way, and the error that stopped the
decoder, if one did. -/
structure Step (α : Type) where
  val : α
  saved : Option GoError := none
  abort : Option GoError := none

/-- The error `Unmarshal` reports for a finished step: the one that stopped
it, else the first one saved. -/
def Step.err {α : Type} (s : Step α) : Option GoError :=
  match s.abort with
  | some e => some e
  | none => s.saved

/-! ## Member names -/

/-- The least rune of a rune's case-folding orbit, for the orbits that hold an
ASCII letter; every other rune is left as it is. -/
def foldRune (c : Char) : Nat :=
  let n := c.toNat
  if 97 ≤ n ∧ n ≤ 122 then n - 32
  else if n = 0x17F then 83
  else if n = 0x212A then 75
  else n

/-- The folded form of a member name. -/
def foldName (s : String) : List Nat :=
  s.data.map foldRune

/-- Whether the member name `key` selects the struct field whose JSON name is
`field` (an ASCII name): the names are equal after case folding. -/
def fieldMatches (field key : String) : Bool :=
  decide (foldName key = foldName field)

/-! ## Base64 (`base64.StdEncoding`) -/

/-- The value of a character of the standard alphabet. -/
def b64Value (c : Char) : Option Nat :=
  let n := c.toNat
  if 65 ≤ n ∧ n ≤ 90 then some (n - 65)
  else if 97 ≤ n ∧ n ≤ 122 then some (n - 71)
  else if 48 ≤ n ∧ n ≤ 57 then some (n + 4)
  else if n = 43 then some 62
  else if n = 47 then some 63
  else none

/-- Carriage return and line feed, which the decoder skips. -/
def isNewline (c : Char) : Bool :=
  c.toNat = 10 || c.toNat = 13

/-- Drop the newline characters at the front. -/
def skipNewlines : List Char → List Char
  | [] => []
  | c :: cs => if isNewline c then skipNewlines cs else c :: cs

/-- The 24 bits of a quantum of four sextets. -/
def quantum (a b c d : Nat) : Nat :=
  a * 262144 + b * 4096 + c * 64 + d

/-- Byte `i` (0, 1 or 2, from the top) of a quantum. -/
def quantumByte (q : Nat) (i : Nat) : Byte :=
  Fin.ofNat (q / 2 ^ (8 * (2 - i)))

/-- The decoder of `base64.StdEncoding`, not strict: `pending` holds the
sextets of the quantum being read. `none` is a `CorruptInputError`. -/
def b64DecodeFrom : List Nat → List Char → Option (List Byte)
  | pending, [] => if pending = [] then some [] else none
  | pending, c :: cs =>
    match b64Value c with
    | some v =>
      match pending with
      | [x, y, z] =>
        match b64DecodeFrom [] cs with
        | some rest =>
          let q := quantum x y z v
          some (quantumByte q 0 :: quantumByte q 1 :: quantumByte q 2 :: rest)
        | none => none
      | _ => b64DecodeFrom (pending ++ [v]) cs
    | none =>
      if isNewline c then b64DecodeFrom pending cs
      else if c.toNat = 61 then
        match pending with
        | [x, y] =>
          match skipNewlines cs with
          | p :: rest =>
            if p.toNat = 61 ∧ skipNewlines rest = [] then
              some [quantumByte (quantum x y 0 0) 0]
            else none
          | [] => none
        | [x, y, z] =>
          if skipNewlines cs = [] then
            let q := quantum x y z 0
            some [quantumByte q 0, quantumByte q 1]
          else none
        | _ => none
      else none

/-- The call `base64.StdEncoding.Decode` on a JSON string. -/
def b64Decode (s : String) : Option (List Byte) :=
  b64DecodeFrom [] s.data

/-- The character of a sextet. -/
def b64Char (v : Nat) : Char :=
  "ABCDEFGHIJKLMNOPQRSTUVWXYZabcdefghijklmnopqrstuvwxyz0123456789+/".data.getD v 'A'

/-- The encoder of `base64.StdEncoding`, which `json.Marshal` applies to a
byte slice. -/
def b64EncodeChars : List Byte → List Char
  | [] => []
  | [a] =>
    [b64Char (a.val / 4), b64Char (a.val % 4 * 16), '=', '=']
  | [a, b] =>
    [b64Char (a.val / 4), b64Char (a.val % 4 * 16 + b.val / 16),
      b64Char (b.val % 16 * 4), '=']
  | a :: b :: c :: rest =>
    b64Char (a.val / 4) :: b64Char (a.val % 4 * 16 + b.val / 16) ::
      b64Char (b.val % 16 * 4 + c.val / 64) :: b64Char (c.val % 64) ::
      b64EncodeChars rest

/-- The base64 text of a byte slice. -/
def b64Encode (bs : List Byte) : String :=
  String.mk (b64EncodeChars bs)

/-! ## Storing JSON into the result of `Dir` -/

/-- The inner struct of the payload of `Dir`: `struct { Content []byte }`.
`Content` holds the elements of the slice and `spare` what its backing array
holds past them; memory past `spare` is zero. -/
structure DirField where
  Content : List Byte
  spare : List Byte
  deriving DecidableEq, Repr

/-- The payload of `Dir`: `struct { Dir struct { Content []byte } }`. -/
structure Payload where
  Dir : DirField
  deriving DecidableEq, Repr

/-- The value of a run of decimal digits, `none` when a character is not one. -/
def parseDigits : Nat → List Char → Option Nat
  | acc, [] => some acc
  | acc, c :: cs =>
    if 48 ≤ c.toNat ∧ c.toNat ≤ 57 then parseDigits (acc * 10 + (c.toNat - 48)) cs
    else none

/-- A number literal read as a `uint8`: `strconv.ParseUint` in base 10 and
the overflow check. -/
def parseUint8 (lit : String) : Option Byte :=
  match lit.data with
  | [] => none
  | cs =>
    match parseDigits 0 cs with
    | some n => if h : n < 256 then some ⟨n, h⟩ else none
    | none => none

/-- One array element stored into a `uint8` that holds `cur`. -/
def storeByte (cur : Byte) : Json → Step Byte
  | .null => ⟨cur, none, none⟩
  | .num lit =>
    match parseUint8 lit with
    | some b => ⟨b, none, none⟩
    | none => ⟨cur, some (.unmarshalType ("number " ++ lit) "uint8"), none⟩
  | j => ⟨cur, some (.unmarshalType j.kind "uint8"), none⟩

/-- The elements of a JSON array stored into a byte slice whose backing array
holds `backing`: element `i` goes into slot `i`, which starts from the byte the
backing array has there, and from zero past its end. -/
def storeBytes : List Byte → List Json → Step (List Byte)
  | _, [] => ⟨[], none, none⟩
  | backing, j :: js =>
    let s := storeByte (backing.headD 0) j
    let r := storeBytes backing.tail js
    ⟨s.val :: r.val, s.saved <|> r.saved, none⟩

/-- A JSON value stored into the field `Content []byte`. `null` makes the
slice nil, a string gives it the fresh bytes the base64 text decodes to, `[]`
gives it a fresh empty slice, and a longer array is stored over the backing
array, the slice ending up as long as the array. -/
def storeContent (d : DirField) : Json → Step DirField
  | .null => ⟨⟨[], []⟩, none, none⟩
  | .str s =>
    match b64Decode s with
    | some bs => ⟨⟨bs, []⟩, none, none⟩
    | none => ⟨d, some .corruptInput, none⟩
  | .arr items =>
    let backing := if items.isEmpty then [] else d.Content ++ d.spare
    let s := storeBytes backing items
    ⟨⟨s.val, backing.drop items.length⟩, s.saved, none⟩
  | j => ⟨d, some (.unmarshalType j.kind "[]uint8"), none⟩

/-- The members of a JSON object stored into the inner struct. -/
def storeDirMembers : DirField → List (String × Json) → Step DirField
  | d, [] => ⟨d, none, none⟩
  | d, (k, v) :: rest =>
    if fieldMatches "content" k then
      let s := storeContent d v
      let r := storeDirMembers s.val rest
      ⟨r.val, s.saved <|> r.saved, none⟩
    else storeDirMembers d rest

/-- A JSON value stored into the inner struct. -/
def storeDir (d : DirField) : Json → Step DirField
  | .null => ⟨d, none, none⟩
  | .obj members => storeDirMembers d members
  | j => ⟨d, some (.unmarshalType j.kind "struct dir"), none⟩

/-- The members of a JSON object stored into the payload. -/
def storePayloadMembers : Payload → List (String × Json) → Step Payload
  | p, [] => ⟨p, none, none⟩
  | p, (k, v) :: rest =>
    if fieldMatches "dir" k then
      let s := storeDir p.Dir v
      let r := storePayloadMembers ⟨s.val⟩ rest
      ⟨r.val, s.saved <|> r.saved, none⟩
    else storePayloadMembers p rest

/-- A JSON value stored into the payload of `Dir`. -/
def unmarshalPayload (p : Payload) : Json → Step Payload
  | .null => ⟨p, none, none⟩
  | .obj members => storePayloadMembers p members
  | j => ⟨p, some (.unmarshalType j.kind "struct payload"), none⟩

/-! ## Storing JSON into the response envelope -/

/-- The local `scan` of `post` together with what its `Data` points to:
`aliased` says whether `scan.Data` still holds the caller's pointer, `data` is
the value behind that pointer, `errors` is `scan.Errors` and `spare` what the
backing array of `scan.Errors` holds past its length. -/
structure Scan (α E : Type) where
  aliased : Bool
  data : α
  errors : List (Option E)
  spare : List (Option E)

/-- The elements of a JSON array stored into a `gqlerror.List` whose backing
array holds `old`; `ed` stores one element into a slot (`none` is a nil
pointer), and a slot past the backing array starts nil. -/
def storeEntries {E : Type} (ed : Option E → Json → Step (Option E)) :
    List (Option E) → List Json → Step (List (Option E))
  | _, [] => ⟨[], none, none⟩
  | old, j :: js =>
    let s := ed old.head?.join j
    match s.abort with
    | some e => ⟨s.val :: old.tail, s.saved, some e⟩
    | none =>
      let r := storeEntries ed old.tail js
      ⟨s.val :: r.val, s.saved <|> r.saved, r.abort⟩

/-- A `data` member stored into `scan`. One that is `null` clears `scan.Data`;
any other goes through the pointer into the caller's value while the pointer is
there, and into the interface itself afterwards. -/
def storeData {α E : Type} (um : α → Json → Step α) (sc : Scan α E) (v : Json) :
    Step (Scan α E) :=
  if v.isNull then ⟨{ sc with aliased := false }, none, none⟩
  else if sc.aliased then
    let s := um sc.data v
    ⟨{ sc with data := s.val }, s.saved, s.abort⟩
  else ⟨sc, none, none⟩

/-- An `errors` member stored into `scan`. `null` makes the list nil, `[]`
gives it a fresh empty slice, and a longer array is stored over the backing
array, the list ending up as long as the array. -/
def storeErrors {α E : Type} (ed : Option E → Json → Step (Option E)) (sc : Scan α E) :
    Json → Step (Scan α E)
  | .null => ⟨{ sc with errors := [], spare := [] }, none, none⟩
  | .arr items =>
    let backing := if items.isEmpty then [] else sc.errors ++ sc.spare
    let s := storeEntries ed backing items
    ⟨{ sc with errors := s.val, spare := backing.drop items.length }, s.saved, s.abort⟩
  | v => ⟨sc, some (.unmarshalType v.kind "gqlerror.List"), none⟩

/-- One member of the envelope stored into `scan`; a name that selects
neither field is skipped. -/
def storeMember {α E : Type} (um : α → Json → Step α)
    (ed : Option E → Json → Step (Option E)) (sc : Scan α E) (k : String) (v : Json) :
    Step (Scan α E) :=
  if fieldMatches "data" k then storeData um sc v
  else if fieldMatches "errors" k then storeErrors ed sc v
  else ⟨sc, none, none⟩

/-- The members of the envelope stored in order, until an error stops the
decoder. -/
def storeMembers {α E : Type} (um : α → Json → Step α)
    (ed : Option E → Json → Step (Option E)) :
    Scan α E → List (String × Json) → Step (Scan α E)
  | sc, [] => ⟨sc, none, none⟩
  | sc, (k, v) :: rest =>
    let s := storeMember um ed sc k v
    match s.abort with
    | some e => ⟨s.val, s.saved, some e⟩
    | none =>
      let r := storeMembers um ed s.val rest
      ⟨r.val, s.saved <|> r.saved, r.abort⟩

/-- A JSON value stored into `scan`. -/
def unmarshalScan {α E : Type} (um : α → Json → Step α)
    (ed : Option E → Json → Step (Option E)) (sc : Scan α E) : Json → Step (Scan α E)
  | .null => ⟨sc, none, none⟩
  | .obj members => storeMembers um ed sc members
  | j => ⟨sc, some (.unmarshalType j.kind "struct scan"), none⟩

/-- The call `json.NewDecoder(res.Body).Decode(&scan)`: the state of `scan`
afterwards and the error returned. -/
def decodeBody {α E : Type} (um : α → Json → Step α)
    (ed : Option E → Json → Step (Option E)) (sc : Scan α E) :
    Body → Scan α E × Option GoError
  | .blank _ => (sc, some .eof)
  | .truncated => (sc, some .unexpectedEOF)
  | .malformed msg => (sc, some (.malformedJSON msg))
  | .value j =>
    let s := unmarshalScan um ed sc j
    (s.val, s.err)

/-! ## Requests, responses and the client -/

/-- An `http.Header`: canonical header names with their values. The map is
never nil: `http.NewRequestWithContext` makes one, and `http.Client` gives a
request one before it calls its transport. -/
structure Header where
  entries : List (String × List String)

/-- The values stored under a name (`Header.Values`). -/
def Header.values (h : Header) (k : String) : List String :=
  (h.entries.lookup k).getD []

/-- The method `Header.Set`: the name keeps the one value `v`. -/
def Header.set (h : Header) (k v : String) : Header :=
  ⟨(k, [v]) :: h.entries.filter (fun p => p.1 ≠ k)⟩

/-- An `*http.Request` with a body of type `β`. -/
structure Request (β : Type) where
  method : String
  url : String
  header : Header
  body : β

/-- An `*http.Response`: its status code and what its body holds. -/
structure Response where
  status : Int
  body : Body

/-- The type `roundTripper`: it holds the token. -/
structure roundTripper where
  token : String
  deriving DecidableEq, Repr

/-- The fields of `http.Client` that `New` sets; `timeout` is a
`time.Duration`, in nanoseconds. -/
structure HttpClient where
  transport : roundTripper
  timeout : Nat
  deriving DecidableEq, Repr

/-- The type `Client`. -/
structure Client where
  client : HttpClient
  endpoint : String
  deriving DecidableEq, Repr

/-- The constant `defaultURL`. -/
def defaultURL : String := "https://api.atlasgo.cloud/query"

/-- The constant `time.Second`, in nanoseconds. -/
def second : Nat := 1000000000

/-- The function `New`. -/
def New (endpoint token : String) : Client :=
  let endpoint := if endpoint = "" then defaultURL else endpoint
  { endpoint := endpoint
    client := { transport := { token := token }, timeout := second * 30 } }

/-- The method `roundTripper.RoundTrip`; `inner` is
`http.DefaultTransport.RoundTrip` and `ρ` the pair it returns. -/
def roundTripper.RoundTrip {β ρ : Type} (r : roundTripper) (inner : Request β → ρ)
    (req : Request β) : ρ :=
  let h := req.header.set "Authorization" ("Bearer " ++ r.token)
  let h := h.set "User-Agent" "atlas-cli"
  let h := h.set "Content-Type" "application/json"
  inner { req with header := h }

/-- The type `DirInput`. -/
structure DirInput where
  Name : String
  Tag : String
  deriving DecidableEq, Repr

/-- The argument `vars` of `post` as `json.Marshal` sees it: a nil interface,
a value that marshals to a JSON value, or a value it rejects. -/
inductive Vars where
  | absent
  | value (j : Json)
  | unsupported (e : GoError)

/-- The call `json.Marshal` on the request envelope of `post`: `variables` is
left out for a nil interface. -/
def marshalEnvelope (query : String) : Vars → Except GoError Json
  | .absent => .ok (.obj [("query", .str query)])
  | .value j => .ok (.obj [("query", .str query), ("variables", j)])
  | .unsupported e => .error e

/-- The JSON of a `DirInput`: `tag` is left out when it is empty. -/
def marshalDirInput (input : DirInput) : Json :=
  .obj (("name", .str input.Name) ::
    (if input.Tag = "" then [] else [("tag", .str input.Tag)]))

/-- The variable `vars` of `Dir`. -/
def dirVars (input : DirInput) : Vars :=
  .value (.obj [("input", marshalDirInput input)])

/-- The variable `query` of `Dir`. -/
def dirQuery : String :=
  "\n\t\tquery getDir($input: DirInput!) \x7b\n\t\t   dir(input: $input) \x7b\n\t\t     content\n\t\t   \x7d\n\t\t\x7d"

/-- What the client runs on: `newRequestErr` is the error, if any, that
`http.NewRequestWithContext` has for a URL, `clientDo` is what
`http.Client.Do` returns, `roundTrips` are the requests that call of
`http.Client.Do` hands to the inner transport, in order, and `unarchive` is
`migrate.UnarchiveDir`, which returns a pair. -/
structure Env (D : Type) where
  newRequestErr : String → Option GoError
  clientDo : HttpClient → Request Json → Except GoError Response
  roundTrips : HttpClient → Request Json → List (Request Json)
  unarchive : List Byte → Option D × Option GoError

/-- The calls made so far: the requests handed to `http.Client.Do`, the
requests handed to the inner transport, and the byte slices handed to
`migrate.UnarchiveDir`. -/
structure Trace where
  sent : List (Request Json)
  roundTrips : List (Request Json)
  unarchived : List (List Byte)

/-- A call of `http.Client.Do`: what it returns, and the trace with the call
and its round trips added. -/
def Env.callDo {D : Type} (env : Env D) (hc : HttpClient) (req : Request Json)
    (t : Trace) : Except GoError Response × Trace :=
  (env.clientDo hc req,
    { t with sent := t.sent ++ [req], roundTrips := t.roundTrips ++ env.roundTrips hc req })

/-- A call of `migrate.UnarchiveDir`: what it returns, and the trace with the
call added. -/
def Env.callUnarchive {D : Type} (env : Env D) (bs : List Byte) (t : Trace) :
    (Option D × Option GoError) × Trace :=
  (env.unarchive bs, { t with unarchived := t.unarchived ++ [bs] })

/-- What a call of `post` leaves: the error it returns, the value behind the
`data` pointer, and the calls it made. -/
structure Outcome (α E : Type) where
  err : Option (Failure E)
  data : α
  trace : Trace

/-- The requests a call of `post` handed to `http.Client.Do`. -/
def Outcome.sent {α E : Type} (o : Outcome α E) : List (Request Json) :=
  o.trace.sent

/-- The requests a call of `post` had handed to the inner transport. -/
def Outcome.roundTrips {α E : Type} (o : Outcome α E) : List (Request Json) :=
  o.trace.roundTrips

/-- Whether some member of an object selects the field `data` with a value
other than `null`. -/
def hasData : List (String × Json) → Bool
  | [] => false
  | (k, v) :: rest => (fieldMatches "data" k && !v.isNull) || hasData rest

/-- Whether the body is a JSON object with a `data` member other than `null`. -/
def Body.populatesData : Body → Bool
  | .value (.obj members) => hasData members
  | _ => false

/-- The test `err != nil && !errors.Is(err, io.EOF)` on what the decoder
returned: the error `post` returns at once, if any. -/
def fatal : Option GoError → Option GoError
  | some e => if e.isEOF then none else some e
  | none => none

/-- The request `post` builds for an endpoint and a marshalled envelope. -/
def newRequest (endpoint : String) (body : Json) : Request Json :=
  { method := "POST", url := endpoint
    header := (Header.mk []).set "Content-Type" "application/json"
    body := body }

/-- The method `Client.post`. The result type of the caller is `α`, stored
into by `um`; `ed` stores one entry of the errors list; `data` is the value
behind the pointer the caller passes. -/
def Client.post {D α E : Type} (env : Env D) (um : α → Json → Step α)
    (ed : Option E → Json → Step (Option E)) (c : Client) (query : String)
    (vars : Vars) (data : α) : Outcome α E :=
  let t : Trace := ⟨[], [], []⟩
  match marshalEnvelope query vars with
  | .error e => ⟨some (.err e), data, t⟩
  | .ok body =>
    match env.newRequestErr c.endpoint with
    | some e => ⟨some (.err e), data, t⟩
    | none =>
      let req := newRequest c.endpoint body
      match env.callDo c.client req t with
      | (.error e, t) => ⟨some (.err e), data, t⟩
      | (.ok res, t) =>
        if res.status ≠ 200 then
          ⟨some (.err (.errorf ("unexpected status code: " ++ toString res.status))),
            data, t⟩
        else
          let (scan, err) := decodeBody um ed ⟨true, data, [], []⟩ res.body
          match fatal err with
          | some e => ⟨some (.err e), scan.data, t⟩
          | none =>
            if scan.errors.length > 0 then ⟨some (.domain scan.errors), scan.data, t⟩
            else ⟨none, scan.data, t⟩

/-- What a call of `Dir` leaves: the directory and the error it returns, and
the calls it made. -/
structure DirOutcome (D E : Type) where
  dir : Option D
  err : Option (Failure E)
  trace : Trace

/-- The requests a call of `Dir` handed to `http.Client.Do`. -/
def DirOutcome.sent {D E : Type} (o : DirOutcome D E) : List (Request Json) :=
  o.trace.sent

/-- The requests a call of `Dir` had handed to the inner transport. -/
def DirOutcome.roundTrips {D E : Type} (o : DirOutcome D E) : List (Request Json) :=
  o.trace.roundTrips

/-- The byte slices a call of `Dir` handed to `migrate.UnarchiveDir`. -/
def DirOutcome.unarchived {D E : Type} (o : DirOutcome D E) : List (List Byte) :=
  o.trace.unarchived

/-- The method `Client.Dir`. -/
def Client.Dir {D E : Type} (env : Env D) (ed : Option E → Json → Step (Option E))
    (c : Client) (input : DirInput) : DirOutcome D E :=
  let r := c.post env unmarshalPayload ed dirQuery (dirVars input) (⟨⟨[], []⟩⟩ : Payload)
  match r.err with
  | some e => ⟨none, some e, r.trace⟩
  | none =>
    match env.callUnarchive r.data.Dir.Content r.trace with
    | ((d, e), t) => ⟨d, e.map .err, t⟩

/-! ## What `http.Client.Do` does with its transport -/

/-- What `net/http` decides after a response: it is the final one, or a
redirect to follow with the request built for the next hop, or a redirect it
fails to follow (a `Location` that does not parse, a body it cannot get
again). -/
inductive Hop where
  | final
  | next (req : Request Json)
  | fail (e : GoError)

/-- What lies below `http.Client`: `transport` is
`http.DefaultTransport.RoundTrip`, `timedOut` says whether the client's
`Timeout` has fired when the transport fails on a request, `redirect` is the
decision of `net/http` after a response, `newRequestErr` and `unarchive` are as
in `Env`. -/
structure Net (D : Type) where
  newRequestErr : String → Option GoError
  transport : Request Json → Except GoError Response
  timedOut : Request Json → Bool
  redirect : Request Json → Response → Hop
  unarchive : List Byte → Option D × Option GoError

/-- Whether a character is printable ASCII. -/
def isPrint (c : Char) : Bool :=
  decide (32 ≤ c.toNat ∧ c.toNat ≤ 126)

/-- An ASCII letter in lower case. -/
def asciiLower (c : Char) : Char :=
  if 65 ≤ c.toNat ∧ c.toNat ≤ 90 then Char.ofNat (c.toNat + 32) else c

/-- The function `urlErrorOp` of `net/http`: the method with its first
character kept and the rest in lower case. -/
def urlErrorOp (method : String) : String :=
  match method.data with
  | [] => "Get"
  | c :: cs => if (c :: cs).all isPrint then String.mk (c :: cs.map asciiLower) else method

/-- The error `http.Client.Do` wraps for an error of its transport: a TLS
record header that reads "HTTP/" becomes the scheme mismatch error, and when
the client's `Timeout` has fired the timeout error takes the place of the
error. -/
def sendError (timedOut : Bool) (e : GoError) : GoError :=
  let e :=
    match e with
    | .tlsRecordHeader h =>
      if h = "HTTP/" then .errorf "http: server gave HTTP response to HTTPS client" else e
    | _ => e
  if timedOut then .clientTimeout e else e

/-- The hops of `http.Client.Do`, at most `fuel` of them: each goes through
`roundTripper.RoundTrip` to the inner transport; a failure of the transport
comes back wrapped in a `*url.Error`, a redirect is followed, and any other
response is returned. With the result come the requests handed to the inner
transport. -/
def doHops {D : Type} (net : Net D) (hc : HttpClient) (op : String) :
    Nat → Request Json → Except GoError Response × List (Request Json)
  | 0, _ => (.error (.urlError op (.errorf "stopped after 10 redirects")), [])
  | fuel + 1, req =>
    match hc.transport.RoundTrip (fun r => (net.transport r, r)) req with
    | (.error e, r) =>
      (.error (.urlError op (sendError (decide (0 < hc.timeout) && net.timedOut r) e)), [r])
    | (.ok res, r) =>
      match net.redirect req res with
      | .final => (.ok res, [r])
      | .fail e => (.error (.urlError op e), [r])
      | .next req' =>
        let rest := doHops net hc op fuel req'
        (rest.1, r :: rest.2)

/-- The method `http.Client.Do` with no `CheckRedirect`: it stops after ten
requests. -/
def httpDo {D : Type} (net : Net D) (hc : HttpClient) (req : Request Json) :
    Except GoError Response × List (Request Json) :=
  doHops net hc (urlErrorOp req.method) 10 req

/-- The environment a `Net` gives. -/
def Net.env {D : Type} (net : Net D) : Env D where
  newRequestErr := net.newRequestErr
  clientDo := fun hc req => (httpDo net hc req).1
  roundTrips := fun hc req => (httpDo net hc req).2
  unarchive := net.unarchive

/-! ## Sample data for the examples -/

/-- The members of an entry stored into a message. -/
def storeMessage : String → List (String × Json) → Step String
  | m, [] => ⟨m, none, none⟩
  | m, (k, v) :: rest =>
    if fieldMatches "message" k then
      match v with
      | .null => storeMessage m rest
      | .str s => storeMessage s rest
      | _ =>
        let r := storeMessage m rest
        ⟨r.val, some (.unmarshalType v.kind "string"), none⟩
    else storeMessage m rest

/-- An entry decoder for the examples: `gqlerror.Error` cut down to its
`Message` field. -/
def messageEntry : Option String → Json → Step (Option String)
  | _, .null => ⟨none, none, none⟩
  | old, .obj members =>
    let s := storeMessage (old.getD "") members
    ⟨some s.val, s.saved, none⟩
  | old, j => ⟨old, some (.unmarshalType j.kind "gqlerror.Error"), none⟩

/-- A network whose transport answers every request with `res`, a final
response, whose URLs all parse, and whose unarchiver returns the bytes
themselves. -/
def answeringNet (res : Response) : Net (List Byte) where
  newRequestErr := fun _ => none
  transport := fun _ => .ok res
  timedOut := fun _ => false
  redirect := fun _ _ => .final
  unarchive := fun bs => (some bs, none)

/-- The environment of `answeringNet`: `http.Client.Do` returns `res`. -/
def answering (res : Response) : Env (List Byte) :=
  (answeringNet res).env

/-- A network whose transport fails on every request with `e`, before the
client's timeout. -/
def failingNet (e : GoError) : Net (List Byte) where
  newRequestErr := fun _ => none
  transport := fun _ => .error e
  timedOut := fun _ => false
  redirect := fun _ _ => .final
  unarchive := fun bs => (some bs, none)

/-- The environment of `failingNet`: `http.Client.Do` returns the
`*url.Error` that wraps `e`. -/
def failing (e : GoError) : Env (List Byte) :=
  (failingNet e).env

/-- The envelope with an optional `data` member followed by an `errors`
member that is an array. -/
def envelope (data : Option Json) (errors : List Json) : Json :=
  .obj ((match data with
    | some d => [("data", d)]
    | none => []) ++ [("errors", .arr errors)])

/-- The body `{"data":{"dir":{"content":s}}}`. -/
def dirBody (s : String) : Json :=
  .obj [("data", .obj [("dir", .obj [("content", .str s)])])]


/-! ## Lemmas on the decoder -/

/-- The name `errors` does not select the field `data`. -/
theorem fieldMatches_data_errors : fieldMatches "data" "errors" = false := by decide

/-- The name `data` selects the field `data`. -/
theorem fieldMatches_data_data : fieldMatches "data" "data" = true := by decide

/-- The name `errors` selects the field `errors`. -/
theorem fieldMatches_errors_errors : fieldMatches "errors" "errors" = true := by decide

/-- The name `dir` selects the field `dir`. -/
theorem fieldMatches_dir_dir : fieldMatches "dir" "dir" = true := by decide

/-- The name `content` selects the field `content`. -/
theorem fieldMatches_content_content : fieldMatches "content" "content" = true := by decide

/-- A name that selects `errors` does not select `data`. -/
theorem fieldMatches_errors_not_data (k : String) (h : fieldMatches "errors" k = true) :
    fieldMatches "data" k = false := by
  simp only [fieldMatches, decide_eq_true_eq] at h
  simp only [fieldMatches, h, decide_eq_false_iff_not]
  decide

/-- A step that reports no error did not stop early. -/
theorem Step.abort_of_err {α : Type} (s : Step α) (h : s.err = none) : s.abort = none := by
  unfold Step.err at h
  cases hx : s.abort with
  | none => rfl
  | some e => simp [hx] at h

/-- Entries that each decode without an error decode, as a list, to the list
of their values, in order. -/
theorem storeEntries_map {E : Type} (ed : Option E → Json → Step (Option E))
    (f : Json → Option E) (es : List Json)
    (hes : ∀ j ∈ es, ed none j = ⟨f j, none, none⟩) :
    storeEntries ed [] es = ⟨es.map f, none, none⟩ := by
  induction es with
  | nil => rfl
  | cons j js ih =>
    have hj := hes j (List.mem_cons_self j js)
    have hjs := ih (fun x hx => hes x (List.mem_cons_of_mem j hx))
    simp [storeEntries, hj, hjs]

/-- An array of entries that decode, stored into a list that is nil, leaves
the decoded entries, in order. -/
theorem storeErrors_fresh {α E : Type} (ed : Option E → Json → Step (Option E))
    (f : Json → Option E) (es : List Json) (sc : Scan α E)
    (hes : ∀ j ∈ es, ed none j = ⟨f j, none, none⟩)
    (h1 : sc.errors = []) (h2 : sc.spare = []) :
    storeErrors ed sc (.arr es) = ⟨{ sc with errors := es.map f, spare := [] }, none, none⟩ := by
  simp [storeErrors, h1, h2, storeEntries_map ed f es hes]

/-- A member whose name does not select `errors` leaves `scan.Errors` and its
backing array alone. -/
theorem storeMember_keeps_errors {α E : Type} (um : α → Json → Step α)
    (ed : Option E → Json → Step (Option E)) (sc : Scan α E) (k : String) (v : Json)
    (h : fieldMatches "errors" k = false) :
    (storeMember um ed sc k v).val.errors = sc.errors ∧
      (storeMember um ed sc k v).val.spare = sc.spare := by
  unfold storeMember
  by_cases hk : fieldMatches "data" k = true
  · simp only [hk, if_true, storeData]
    split
    · exact ⟨rfl, rfl⟩
    · split <;> exact ⟨rfl, rfl⟩
  · simp [hk, h]

/-- Members none of whose names selects `errors` leave `scan.Errors` and its
backing array alone. -/
theorem storeMembers_keeps_errors {α E : Type} (um : α → Json → Step α)
    (ed : Option E → Json → Step (Option E)) (members : List (String × Json))
    (sc : Scan α E) (h : ∀ m ∈ members, fieldMatches "errors" m.1 = false) :
    (storeMembers um ed sc members).val.errors = sc.errors ∧
      (storeMembers um ed sc members).val.spare = sc.spare := by
  induction members generalizing sc with
  | nil => exact ⟨rfl, rfl⟩
  | cons m rest ih =>
    obtain ⟨k, v⟩ := m
    have h1 := storeMember_keeps_errors um ed sc k v (h (k, v) (List.mem_cons_self _ _))
    have h2 := fun s => ih s (fun x hx => h x (List.mem_cons_of_mem _ hx))
    simp only [storeMembers]
    split
    · exact h1
    · simp only []
      rw [(h2 _).1, (h2 _).2]
      exact h1

/-- An object whose one `errors` member is an array of entries that decode,
stored without the decoder stopping, leaves the decoded entries, in order, in
`scan.Errors`. -/
theorem storeMembers_errors {α E : Type} (um : α → Json → Step α)
    (ed : Option E → Json → Step (Option E)) (f : Json → Option E)
    (before after : List (String × Json)) (k : String) (es : List Json)
    (hk : fieldMatches "errors" k = true)
    (hb : ∀ m ∈ before, fieldMatches "errors" m.1 = false)
    (ha : ∀ m ∈ after, fieldMatches "errors" m.1 = false)
    (hes : ∀ j ∈ es, ed none j = ⟨f j, none, none⟩)
    (sc : Scan α E) (hsc : sc.errors = [] ∧ sc.spare = [])
    (hab : (storeMembers um ed sc (before ++ (k, .arr es) :: after)).abort = none) :
    (storeMembers um ed sc (before ++ (k, .arr es) :: after)).val.errors = es.map f := by
  induction before generalizing sc with
  | nil =>
    have hs : storeMember um ed sc k (.arr es) =
        ⟨{ sc with errors := es.map f, spare := [] }, none, none⟩ := by
      simp only [storeMember, fieldMatches_errors_not_data k hk, hk, if_true,
        Bool.false_eq_true, if_false]
      exact storeErrors_fresh ed f es sc hes hsc.1 hsc.2
    simp only [List.nil_append, storeMembers, hs]
    rw [(storeMembers_keeps_errors um ed after _ ha).1]
  | cons m rest ih =>
    obtain ⟨k', v⟩ := m
    have h1 := storeMember_keeps_errors um ed sc k' v (hb (k', v) (List.mem_cons_self _ _))
    simp only [List.cons_append, storeMembers] at hab ⊢
    cases hx : (storeMember um ed sc k' v).abort with
    | some e => simp [hx] at hab
    | none =>
      simp only [hx] at hab ⊢
      exact ih (fun x hx' => hb x (List.mem_cons_of_mem _ hx')) _
        ⟨by rw [h1.1, hsc.1], by rw [h1.2, hsc.2]⟩ hab

/-- A member that is not a `data` member with a value leaves the value behind
the pointer alone. -/
theorem storeMember_keeps_data {α E : Type} (um : α → Json → Step α)
    (ed : Option E → Json → Step (Option E)) (sc : Scan α E) (k : String) (v : Json)
    (h : (fieldMatches "data" k && !v.isNull) = false) :
    (storeMember um ed sc k v).val.data = sc.data := by
  unfold storeMember
  by_cases hk : fieldMatches "data" k = true
  · have hv : v.isNull = true := by simpa [hk] using h
    simp [hk, storeData, hv]
  · simp only [hk]
    by_cases he : fieldMatches "errors" k = true
    · simp only [he]
      cases v <;> simp [storeErrors]
    · simp [he]

/-- An object without a `data` member that has a value leaves the value
behind the pointer alone. -/
theorem storeMembers_keeps_data {α E : Type} (um : α → Json → Step α)
    (ed : Option E → Json → Step (Option E)) (members : List (String × Json))
    (sc : Scan α E) (h : hasData members = false) :
    (storeMembers um ed sc members).val.data = sc.data := by
  induction members generalizing sc with
  | nil => rfl
  | cons m rest ih =>
    obtain ⟨k, v⟩ := m
    simp only [hasData, Bool.or_eq_false_iff] at h
    have h1 := storeMember_keeps_data um ed sc k v h.1
    simp only [storeMembers]
    split
    · exact h1
    · simp only []
      rw [ih _ h.2, h1]

/-- A body that does not populate `data` leaves the value behind the pointer
alone. -/
theorem decodeBody_keeps_data {α E : Type} (um : α → Json → Step α)
    (ed : Option E → Json → Step (Option E)) (sc : Scan α E) (b : Body)
    (h : b.populatesData = false) :
    (decodeBody um ed sc b).1.data = sc.data := by
  cases b with
  | value j =>
    cases j with
    | obj members => exact storeMembers_keeps_data um ed members sc h
    | _ => rfl
  | _ => rfl


/-! ## Lemmas on `post` and `Dir` -/

/-- What `post` does once `http.Client.Do` has returned a response with
status 200. -/
theorem post_of_ok {D α E : Type} (env : Env D) (um : α → Json → Step α)
    (ed : Option E → Json → Step (Option E)) (c : Client) (query : String) (vars : Vars)
    (data : α) (body : Json) (res : Response)
    (hm : marshalEnvelope query vars = .ok body)
    (hu : env.newRequestErr c.endpoint = none)
    (hd : env.clientDo c.client (newRequest c.endpoint body) = .ok res)
    (hs : res.status = 200) :
    c.post env um ed query vars data =
      match fatal (decodeBody um ed ⟨true, data, [], []⟩ res.body).2 with
      | some e =>
        ⟨some (.err e), (decodeBody um ed ⟨true, data, [], []⟩ res.body).1.data,
          ⟨[newRequest c.endpoint body],
            env.roundTrips c.client (newRequest c.endpoint body), []⟩⟩
      | none =>
        if (decodeBody um ed ⟨true, data, [], []⟩ res.body).1.errors.length > 0 then
          ⟨some (.domain (decodeBody um ed ⟨true, data, [], []⟩ res.body).1.errors),
            (decodeBody um ed ⟨true, data, [], []⟩ res.body).1.data,
            ⟨[newRequest c.endpoint body],
              env.roundTrips c.client (newRequest c.endpoint body), []⟩⟩
        else
          ⟨none, (decodeBody um ed ⟨true, data, [], []⟩ res.body).1.data,
            ⟨[newRequest c.endpoint body],
              env.roundTrips c.client (newRequest c.endpoint body), []⟩⟩ := by
  simp [Client.post, Env.callDo, hm, hu, hd, hs]

/-- What `post` does once `http.Client.Do` has returned an error: it returns
that error, and the one call is in the trace. -/
theorem post_of_error {D α E : Type} (env : Env D) (um : α → Json → Step α)
    (ed : Option E → Json → Step (Option E)) (c : Client) (query : String) (vars : Vars)
    (data : α) (body : Json) (e : GoError)
    (hm : marshalEnvelope query vars = .ok body)
    (hu : env.newRequestErr c.endpoint = none)
    (hd : env.clientDo c.client (newRequest c.endpoint body) = .error e) :
    c.post env um ed query vars data =
      ⟨some (.err e), data,
        ⟨[newRequest c.endpoint body],
          env.roundTrips c.client (newRequest c.endpoint body), []⟩⟩ := by
  simp [Client.post, Env.callDo, hm, hu, hd]

/-- The envelope `Dir` marshals always marshals. -/
theorem marshal_dir (input : DirInput) :
    marshalEnvelope dirQuery (dirVars input) =
      .ok (.obj [("query", .str dirQuery), ("variables", .obj [("input", marshalDirInput input)])]) :=
  rfl

/-- When its call of `post` returns an error, `Dir` returns that error and no
directory, and its trace is that of `post`. -/
theorem dir_of_post_error {D E : Type} (env : Env D)
    (ed : Option E → Json → Step (Option E)) (c : Client) (input : DirInput)
    (x : Failure E)
    (h : (c.post env unmarshalPayload ed dirQuery (dirVars input)
      (⟨⟨[], []⟩⟩ : Payload)).err = some x) :
    c.Dir env ed input =
      ⟨none, some x, (c.post env unmarshalPayload ed dirQuery (dirVars input)
        (⟨⟨[], []⟩⟩ : Payload)).trace⟩ := by
  simp [Client.Dir, h]


/-! ## The claims -/

/-- C1. When the response's status code `s` is not 200, `post` returns the
error whose text is "unexpected status code: " followed by `s` in decimal,
whatever the response body holds: the body is not decoded, the value behind
the `data` pointer stays as it was, and one request has been sent. -/
theorem post_status_not_ok {D α E : Type} (env : Env D) (um : α → Json → Step α)
    (ed : Option E → Json → Step (Option E)) (c : Client) (query : String) (vars : Vars)
    (data : α) (body : Json) (res : Response)
    (hm : marshalEnvelope query vars = .ok body)
    (hu : env.newRequestErr c.endpoint = none)
    (hd : env.clientDo c.client (newRequest c.endpoint body) = .ok res)
    (hs : res.status ≠ 200) :
    (c.post env um ed query vars data).err =
        some (.err (.errorf ("unexpected status code: " ++ toString res.status))) ∧
      (c.post env um ed query vars data).data = data ∧
      (c.post env um ed query vars data).sent = [newRequest c.endpoint body] := by
  simp [Client.post, Env.callDo, Outcome.sent, hm, hu, hd, hs]

/-- C1 at a 404 response whose body is a well-formed envelope with data and
an errors list. -/
theorem post_status_not_ok_witness :
    ((404 : Int) ≠ 200) ∧
    ((New "" "tok").post
      (answering ⟨404, .value (envelope (some (dirBody "QQ=="))
        [.obj [("message", .str "boom")]])⟩)
      unmarshalPayload messageEntry dirQuery (dirVars ⟨"atlas", "v1"⟩) ⟨⟨[], []⟩⟩).err =
        some (.err (.errorf "unexpected status code: 404")) := by
  refine ⟨by decide, ?_⟩
  exact (post_status_not_ok
    (answering ⟨404, .value (envelope (some (dirBody "QQ=="))
      [.obj [("message", .str "boom")]])⟩)
    unmarshalPayload messageEntry (New "" "tok") dirQuery (dirVars ⟨"atlas", "v1"⟩) ⟨⟨[], []⟩⟩ _
    _ rfl rfl rfl (by decide)).1

/-- C2, as amended. For a 200 response whose body is a JSON object with one
errors member, a non-empty array whose entries decode, and which the decoder
stores without an error (so its data member is absent, `null`, or a value the
result type takes), `post` returns the domain error that is the list of the
decoded entries in their order, and `Dir` returns that error, no directory,
and does not call the unarchiver. -/
theorem errors_list_returned {D α E : Type} (env : Env D) (um : α → Json → Step α)
    (ed : Option E → Json → Step (Option E)) (c : Client) (query : String) (vars : Vars)
    (data : α) (input : DirInput) (body : Json) (res : Response)
    (before after : List (String × Json)) (k : String) (es : List Json)
    (f : Json → Option E)
    (hm : marshalEnvelope query vars = .ok body)
    (hu : env.newRequestErr c.endpoint = none)
    (hd : ∀ req, env.clientDo c.client req = .ok res)
    (hs : res.status = 200)
    (hb : res.body = .value (.obj (before ++ (k, .arr es) :: after)))
    (hk : fieldMatches "errors" k = true)
    (hbefore : ∀ m ∈ before, fieldMatches "errors" m.1 = false)
    (hafter : ∀ m ∈ after, fieldMatches "errors" m.1 = false)
    (hne : es ≠ [])
    (hes : ∀ j ∈ es, ed none j = ⟨f j, none, none⟩)
    (hok : (decodeBody um ed ⟨true, data, [], []⟩ res.body).2 = none)
    (hokDir : (decodeBody unmarshalPayload ed ⟨true, ⟨⟨[], []⟩⟩, [], []⟩ res.body).2 = none) :
    (c.post env um ed query vars data).err = some (.domain (es.map f)) ∧
      (c.Dir env ed input).err = some (.domain (es.map f)) ∧
      (c.Dir env ed input).dir = none ∧
      (c.Dir env ed input).unarchived = [] := by
  have hlen : 0 < es.length := List.length_pos.mpr hne
  have key : ∀ {β : Type} (um' : β → Json → Step β) (q : String) (vs : Vars) (b : Json)
      (x : β), marshalEnvelope q vs = .ok b →
      (decodeBody um' ed ⟨true, x, [], []⟩ res.body).2 = none →
      (c.post env um' ed q vs x).err = some (.domain (es.map f)) := by
    intro β um' q vs b x hq hx
    have h1 : (decodeBody um' ed ⟨true, x, [], []⟩ res.body).1.errors = es.map f := by
      rw [hb] at hx ⊢
      exact storeMembers_errors um' ed f before after k es hk hbefore hafter hes _ ⟨rfl, rfl⟩
        (Step.abort_of_err _ hx)
    rw [post_of_ok env um' ed c q vs x b res hq hu (hd _) hs, hx, h1]
    simp [fatal, hlen]
  have hdir := key unmarshalPayload dirQuery (dirVars input) _ ⟨⟨[], []⟩⟩ (marshal_dir input) hokDir
  rw [dir_of_post_error env ed c input _ hdir]
  refine ⟨key um query vars body data hm hok, rfl, rfl, ?_⟩
  rw [post_of_ok env unmarshalPayload ed c dirQuery (dirVars input) ⟨⟨[], []⟩⟩ _ res
    (marshal_dir input) hu (hd _) hs]
  simp only [DirOutcome.unarchived]
  split
  · rfl
  · split <;> rfl

/-- C2, as amended, at the response
`{"data":{"dir":{"content":"QQ=="}},"errors":[{"message":"first"},{"message":"second"}]}`. -/
theorem errors_list_returned_witness :
    ((New "" "tok").Dir
        (answering ⟨200, .value (envelope (some (.obj [("dir", .obj [("content", .str "QQ==")])]))
          [.obj [("message", .str "first")], .obj [("message", .str "second")]])⟩)
        messageEntry ⟨"atlas", "v1"⟩).err = some (.domain [some "first", some "second"]) :=
  (errors_list_returned
    (answering ⟨200, .value (envelope (some (.obj [("dir", .obj [("content", .str "QQ==")])]))
      [.obj [("message", .str "first")], .obj [("message", .str "second")]])⟩)
    unmarshalPayload messageEntry (New "" "tok") dirQuery (dirVars ⟨"atlas", "v1"⟩) ⟨⟨[], []⟩⟩
    ⟨"atlas", "v1"⟩ _ ⟨200, .value (envelope (some (.obj [("dir", .obj [("content", .str "QQ==")])]))
      [.obj [("message", .str "first")], .obj [("message", .str "second")]])⟩
    [("data", .obj [("dir", .obj [("content", .str "QQ==")])])] [] "errors"
    [.obj [("message", .str "first")], .obj [("message", .str "second")]]
    (fun j => (messageEntry none j).val) rfl rfl (fun _ => rfl) rfl rfl (by decide)
    (by decide) (by simp) (by simp)
    (by intro j hj; simp at hj; rcases hj with rfl | rfl <;> rfl)
    (by decide) (by decide)).2.1

/-- C2, the claim as written fails: the response
`{"data":"x","errors":[{"message":"boom"}]}` carries a non-empty errors list
and a data member that does not fit the result type, and `post` and `Dir`
return the decoder's type error, not the errors list. -/
theorem errors_list_lost_to_type_error :
    ((New "" "tok").post
        (answering ⟨200, .value (envelope (some (.str "x")) [.obj [("message", .str "boom")]])⟩)
        unmarshalPayload messageEntry dirQuery (dirVars ⟨"atlas", "v1"⟩) ⟨⟨[], []⟩⟩).err =
      some (.err (.unmarshalType "string" "struct payload")) ∧
    ((New "" "tok").Dir
        (answering ⟨200, .value (envelope (some (.str "x")) [.obj [("message", .str "boom")]])⟩)
        messageEntry ⟨"atlas", "v1"⟩).err ≠ some (.domain [some "boom"]) := by
  decide

/-- C4. For a 200 response with an empty body `post` returns no error and the
value behind the `data` pointer stays as it was. -/
theorem post_empty_body {D α E : Type} (env : Env D) (um : α → Json → Step α)
    (ed : Option E → Json → Step (Option E)) (c : Client) (query : String) (vars : Vars)
    (data : α) (body : Json) (res : Response)
    (hm : marshalEnvelope query vars = .ok body)
    (hu : env.newRequestErr c.endpoint = none)
    (hd : env.clientDo c.client (newRequest c.endpoint body) = .ok res)
    (hs : res.status = 200) (hb : res.body = .blank 0) :
    (c.post env um ed query vars data).err = (none : Option (Failure E)) ∧
      (c.post env um ed query vars data).data = data := by
  simp [Client.post, Env.callDo, hm, hu, hd, hs, hb, decodeBody, fatal, GoError.isEOF]

/-- C4 at a payload that already holds a byte. -/
theorem post_empty_body_witness :
    (Body.blank 0).isEmpty = true ∧
    ((New "" "tok").post (answering ⟨200, .blank 0⟩) unmarshalPayload messageEntry dirQuery
      (dirVars ⟨"atlas", "v1"⟩) ⟨⟨[7], []⟩⟩).err = none ∧
    ((New "" "tok").post (answering ⟨200, .blank 0⟩) unmarshalPayload messageEntry dirQuery
      (dirVars ⟨"atlas", "v1"⟩) ⟨⟨[7], []⟩⟩).data = ⟨⟨[7], []⟩⟩ :=
  ⟨rfl, post_empty_body (answering ⟨200, .blank 0⟩) unmarshalPayload messageEntry
    (New "" "tok") dirQuery (dirVars ⟨"atlas", "v1"⟩) ⟨⟨[7], []⟩⟩ _ _ rfl rfl rfl rfl rfl⟩


/-- C3, as amended. Unless the response is a 200 whose body is a JSON object
with a `data` member other than `null`, `post` leaves the value behind the
`data` pointer exactly as it was: so it does when it fails before sending,
on a transport error, on a status other than 200, on a body the decoder
cannot read, and on a domain error whose body has no data. -/
theorem post_keeps_data {D α E : Type} (env : Env D) (um : α → Json → Step α)
    (ed : Option E → Json → Step (Option E)) (c : Client) (query : String) (vars : Vars)
    (data : α)
    (h : ∀ body res, marshalEnvelope query vars = .ok body →
      env.clientDo c.client (newRequest c.endpoint body) = .ok res →
      res.status = 200 → res.body.populatesData = false) :
    (c.post env um ed query vars data).data = data := by
  cases hm : marshalEnvelope query vars with
  | error e => simp [Client.post, hm]
  | ok body =>
    cases hu : env.newRequestErr c.endpoint with
    | some e => simp [Client.post, hm, hu]
    | none =>
      cases hd : env.clientDo c.client (newRequest c.endpoint body) with
      | error e => simp [Client.post, Env.callDo, hm, hu, hd]
      | ok res =>
        by_cases hs : res.status = 200
        · have hk := decodeBody_keeps_data um ed ⟨true, data, [], []⟩ res.body (h body res hm hd hs)
          rw [post_of_ok env um ed c query vars data body res hm hu hd hs]
          split
          · exact hk
          · split <;> exact hk
        · simp [Client.post, Env.callDo, hm, hu, hd, hs]

/-- C3, as amended, at a 200 response `{"errors":[{"message":"boom"}]}` and a
payload that already holds a byte: the domain error comes back and the byte is
still there. -/
theorem post_keeps_data_witness :
    ((New "" "tok").post
        (answering ⟨200, .value (envelope none [.obj [("message", .str "boom")]])⟩)
        unmarshalPayload messageEntry dirQuery (dirVars ⟨"atlas", "v1"⟩) ⟨⟨[7], []⟩⟩).err =
      some (.domain [some "boom"]) ∧
    ((New "" "tok").post
        (answering ⟨200, .value (envelope none [.obj [("message", .str "boom")]])⟩)
        unmarshalPayload messageEntry dirQuery (dirVars ⟨"atlas", "v1"⟩) ⟨⟨[7], []⟩⟩).data =
      ⟨⟨[7], []⟩⟩ :=
  ⟨by decide,
    post_keeps_data (answering ⟨200, .value (envelope none [.obj [("message", .str "boom")]])⟩)
      unmarshalPayload messageEntry (New "" "tok") dirQuery (dirVars ⟨"atlas", "v1"⟩) ⟨⟨[7], []⟩⟩
      (by
        intro body res _ hd _
        have h0 : (answering ⟨200, .value (envelope none [.obj [("message", .str "boom")]])⟩).clientDo
            (New "" "tok").client (newRequest (New "" "tok").endpoint body) =
            .ok ⟨200, .value (envelope none [.obj [("message", .str "boom")]])⟩ := rfl
        rw [h0] at hd
        cases hd
        rfl)⟩

/-- C3, the claim as written fails: on the 200 response
`{"data":{"dir":{"content":"QQ=="}},"errors":[{"message":"boom"}]}` `post`
returns the domain error, and the value behind the `data` pointer, empty
before the call, holds the decoded byte afterwards. -/
theorem post_error_after_data_stored :
    ((New "" "tok").post
        (answering ⟨200, .value (envelope (some (.obj [("dir", .obj [("content", .str "QQ==")])]))
          [.obj [("message", .str "boom")]])⟩)
        unmarshalPayload messageEntry dirQuery (dirVars ⟨"atlas", "v1"⟩) ⟨⟨[], []⟩⟩).err =
      some (.domain [some "boom"]) ∧
    ((New "" "tok").post
        (answering ⟨200, .value (envelope (some (.obj [("dir", .obj [("content", .str "QQ==")])]))
          [.obj [("message", .str "boom")]])⟩)
        unmarshalPayload messageEntry dirQuery (dirVars ⟨"atlas", "v1"⟩) ⟨⟨[], []⟩⟩).data =
      ⟨⟨[65], []⟩⟩ ∧
    (⟨⟨[65], []⟩⟩ : Payload) ≠ ⟨⟨[], []⟩⟩ := by
  decide


/-! ## Base64: decoding undoes encoding -/

/-- The character of a sextet has that sextet as its value. -/
theorem b64Value_char (v : Nat) (h : v < 64) : b64Value (b64Char v) = some v := by
  have key : ∀ w : Fin 64, b64Value (b64Char w.val) = some w.val := by decide
  exact key ⟨v, h⟩

/-- The first byte of a quantum is made of its first sextet and the top two
bits of the second. -/
theorem quantumByte_zero (a : Byte) (x y z : Nat) (hx : x < 16) (hy : y < 64) (hz : z < 64) :
    quantumByte (quantum (a.val / 4) (a.val % 4 * 16 + x) y z) 0 = a := by
  apply Fin.ext
  have ha := a.isLt
  simp only [quantumByte, quantum, Fin.ofNat, Fin.val_mk]
  norm_num
  omega

/-- The second byte of a quantum is made of the low four bits of the second
sextet and the top four of the third. -/
theorem quantumByte_one (b : Byte) (w p y z : Nat) (hy : y < 4) (hz : z < 64) :
    quantumByte (quantum w (p * 16 + b.val / 16) (b.val % 16 * 4 + y) z) 1 = b := by
  apply Fin.ext
  have hb := b.isLt
  simp only [quantumByte, quantum, Fin.ofNat, Fin.val_mk]
  norm_num
  omega

/-- The third byte of a quantum is made of the low two bits of the third
sextet and the fourth. -/
theorem quantumByte_two (c : Byte) (w x q : Nat) :
    quantumByte (quantum w x (q * 4 + c.val / 64) (c.val % 64)) 2 = c := by
  apply Fin.ext
  have hc := c.isLt
  simp only [quantumByte, quantum, Fin.ofNat, Fin.val_mk]
  norm_num
  omega

/-- The padding character has no value, is no newline, and is code 61. -/
theorem b64_pad : b64Value '=' = none ∧ isNewline '=' = false ∧ ('=' : Char).toNat = 61 := by
  decide

/-- Decoding the encoding of a byte slice gives the slice back. -/
theorem b64DecodeFrom_encode (bs : List Byte) :
    b64DecodeFrom [] (b64EncodeChars bs) = some bs := by
  induction bs using b64EncodeChars.induct with
  | case1 => rfl
  | case2 a =>
    have ha := a.isLt
    have h1 := b64Value_char (a.val / 4) (by omega)
    have h2 := b64Value_char (a.val % 4 * 16) (by omega)
    have hq := quantumByte_zero a 0 0 0 (by omega) (by omega) (by omega)
    simp only [Nat.add_zero] at hq
    simp [b64EncodeChars, b64DecodeFrom, h1, h2, b64_pad, skipNewlines, hq]
  | case3 a b =>
    have ha := a.isLt
    have hb := b.isLt
    have h1 := b64Value_char (a.val / 4) (by omega)
    have h2 := b64Value_char (a.val % 4 * 16 + b.val / 16) (by omega)
    have h3 := b64Value_char (b.val % 16 * 4) (by omega)
    have hq0 := quantumByte_zero a (b.val / 16) (b.val % 16 * 4) 0 (by omega) (by omega)
      (by omega)
    have hq1 := quantumByte_one b (a.val / 4) (a.val % 4) 0 0 (by omega) (by omega)
    simp only [Nat.add_zero] at hq1
    simp [b64EncodeChars, b64DecodeFrom, h1, h2, h3, b64_pad, skipNewlines, hq0, hq1]
  | case4 a b c rest ih =>
    have ha := a.isLt
    have hb := b.isLt
    have hc := c.isLt
    have h1 := b64Value_char (a.val / 4) (by omega)
    have h2 := b64Value_char (a.val % 4 * 16 + b.val / 16) (by omega)
    have h3 := b64Value_char (b.val % 16 * 4 + c.val / 64) (by omega)
    have h4 := b64Value_char (c.val % 64) (by omega)
    have hq0 := quantumByte_zero a (b.val / 16) (b.val % 16 * 4 + c.val / 64) (c.val % 64)
      (by omega) (by omega) (by omega)
    have hq1 := quantumByte_one b (a.val / 4) (a.val % 4) (c.val / 64) (c.val % 64)
      (by omega) (by omega)
    have hq2 := quantumByte_two c (a.val / 4) (a.val % 4 * 16 + b.val / 16) (b.val % 16)
    simp [b64EncodeChars, b64DecodeFrom, h1, h2, h3, h4, ih, hq0, hq1, hq2]

/-- Every byte slice is the decoding of its base64 text. -/
theorem b64Decode_encode (bs : List Byte) : b64Decode (b64Encode bs) = some bs := by
  simp [b64Decode, b64Encode, b64DecodeFrom_encode]


/-- The body `dirBody s`, for a string that decodes to `bs`, is decoded
without error into a payload whose content is `bs`. -/
theorem decode_dirBody {E : Type} (ed : Option E → Json → Step (Option E)) (s : String)
    (bs : List Byte) (h64 : b64Decode s = some bs) :
    decodeBody unmarshalPayload ed ⟨true, ⟨⟨[], []⟩⟩, [], []⟩ (.value (dirBody s)) =
      (⟨true, ⟨⟨bs, []⟩⟩, [], []⟩, none) := by
  have h1 : fieldMatches "dir" "dir" = true := by decide
  have h2 : fieldMatches "content" "content" = true := by decide
  simp [decodeBody, unmarshalScan, dirBody, storeMembers, storeMember, storeData,
    fieldMatches_data_data, Json.isNull, unmarshalPayload, storePayloadMembers, storeDir,
    storeDirMembers, storeContent, h1, h2, h64, Step.err]

/-- C5. For every input and every 200 response whose body is
`{"data":{"dir":{"content":s}}}` with no errors list, where the string `s` is
base64 for the bytes `bs`, `Dir` hands exactly `bs` to the unarchiver and
returns the pair the unarchiver returns for them: its directory and its
error. -/
theorem dir_returns_unarchived {D E : Type} (env : Env D)
    (ed : Option E → Json → Step (Option E)) (c : Client) (input : DirInput)
    (res : Response) (s : String) (bs : List Byte)
    (hu : env.newRequestErr c.endpoint = none)
    (hd : ∀ req, env.clientDo c.client req = .ok res)
    (hs : res.status = 200)
    (hb : res.body = .value (dirBody s))
    (h64 : b64Decode s = some bs) :
    (c.Dir env ed input).dir = (env.unarchive bs).1 ∧
      (c.Dir env ed input).err = (env.unarchive bs).2.map .err ∧
      (c.Dir env ed input).unarchived = [bs] := by
  have hp := post_of_ok env unmarshalPayload ed c dirQuery (dirVars input) ⟨⟨[], []⟩⟩ _ res
    (marshal_dir input) hu (hd _) hs
  rw [hb, decode_dirBody ed s bs h64] at hp
  simp [fatal] at hp
  simp [Client.Dir, hp, Env.callUnarchive, DirOutcome.unarchived]

/-- C5 at the bytes "ABC" in their base64 text, with an unarchiver that
returns the bytes it is given. -/
theorem dir_returns_unarchived_witness :
    ((New "" "tok").Dir (answering ⟨200, .value (dirBody (b64Encode [65, 66, 67]))⟩)
        messageEntry ⟨"atlas", "v1"⟩).dir = some [65, 66, 67] ∧
    ((New "" "tok").Dir (answering ⟨200, .value (dirBody (b64Encode [65, 66, 67]))⟩)
        messageEntry ⟨"atlas", "v1"⟩).err = none :=
  ⟨(dir_returns_unarchived (answering ⟨200, .value (dirBody (b64Encode [65, 66, 67]))⟩)
      messageEntry (New "" "tok") ⟨"atlas", "v1"⟩ _ _ [65, 66, 67] rfl (fun _ => rfl) rfl rfl
      (b64Decode_encode _)).1,
   (dir_returns_unarchived (answering ⟨200, .value (dirBody (b64Encode [65, 66, 67]))⟩)
      messageEntry (New "" "tok") ⟨"atlas", "v1"⟩ _ _ [65, 66, 67] rfl (fun _ => rfl) rfl rfl
      (b64Decode_encode _)).2.1⟩

/-! ## Headers -/

/-- After `Set` a name holds exactly the value set. -/
theorem Header.values_set (h : Header) (k v : String) : (h.set k v).values k = [v] := by
  simp [Header.values, Header.set, List.lookup]

/-- Filtering out another name does not change what a name holds. -/
theorem lookup_filter_ne (entries : List (String × List String)) (k k' : String)
    (hk : k' ≠ k) :
    (entries.filter (fun p => p.1 ≠ k)).lookup k' = entries.lookup k' := by
  induction entries with
  | nil => rfl
  | cons p rest ih =>
    obtain ⟨a, vs⟩ := p
    by_cases ha : a = k
    · subst ha
      have hne : (k' == a) = false := by simpa using hk
      simp only [ne_eq, decide_not] at ih
      simp [List.filter, List.lookup, hne, ih]
    · by_cases hb : k' = a
      · subst hb
        simp [List.filter, List.lookup, ha]
      · have hne : (k' == a) = false := by simpa using hb
        simp only [ne_eq, decide_not] at ih
        simp [List.filter, List.lookup, ha, hne, ih]

/-- `Set` leaves every other name as it was. -/
theorem Header.values_set_ne (h : Header) (k v k' : String) (hk : k' ≠ k) :
    (h.set k v).values k' = h.values k' := by
  have hne : (k' == k) = false := by simpa using hk
  have hf := lookup_filter_ne h.entries k k' hk
  simp only [ne_eq, decide_not] at hf
  simp [Header.values, Header.set, List.lookup, hne, hf]

/-- C6. For every request and token there is one request `out` that
`RoundTrip` hands to the inner transport, returning what that returns: its
Authorization header is exactly "Bearer " and the token, its User-Agent
exactly "atlas-cli", its Content-Type exactly "application/json", whatever
the request had under those names, and its method, URL, body and every other
header are those of the request. -/
theorem roundTrip_decorates {β : Type} (r : roundTripper) (req : Request β) :
    ∃ out : Request β,
      (∀ (ρ : Type) (inner : Request β → ρ), r.RoundTrip inner req = inner out) ∧
      out.header.values "Authorization" = ["Bearer " ++ r.token] ∧
      out.header.values "User-Agent" = ["atlas-cli"] ∧
      out.header.values "Content-Type" = ["application/json"] ∧
      out.method = req.method ∧ out.url = req.url ∧ out.body = req.body ∧
      ∀ k, k ≠ "Authorization" → k ≠ "User-Agent" → k ≠ "Content-Type" →
        out.header.values k = req.header.values k := by
  refine ⟨_, fun ρ inner => rfl, ?_, ?_, ?_, rfl, rfl, rfl, ?_⟩
  · rw [Header.values_set_ne _ _ _ _ (by decide), Header.values_set_ne _ _ _ _ (by decide),
      Header.values_set]
  · rw [Header.values_set_ne _ _ _ _ (by decide), Header.values_set]
  · rw [Header.values_set]
  · intro k h1 h2 h3
    rw [Header.values_set_ne _ _ _ _ h3, Header.values_set_ne _ _ _ _ h2,
      Header.values_set_ne _ _ _ _ h1]


/-! ## Which values the decoder refuses -/

/-- Entries that each decode without an error leave no error as a list. -/
theorem storeEntries_clean {E : Type} (ed : Option E → Json → Step (Option E))
    (es : List Json) (hes : ∀ j ∈ es, (ed none j).err = none) :
    (storeEntries ed [] es).saved = none ∧ (storeEntries ed [] es).abort = none := by
  have h : ∀ j ∈ es, ed none j = ⟨(ed none j).val, none, none⟩ := by
    intro j hj
    have h1 := hes j hj
    have h2 := Step.abort_of_err _ h1
    have h3 : (ed none j).saved = none := by
      simpa [Step.err, h2] using h1
    cases hx : ed none j with
    | mk v sv ab =>
      rw [hx] at h2 h3
      simp only at h2 h3
      rw [h2, h3]
  rw [storeEntries_map ed (fun j => (ed none j).val) es h]
  exact ⟨rfl, rfl⟩

/-- A value that is neither an object nor `null` does not fit the envelope. -/
theorem unmarshalScan_misfit {α E : Type} (um : α → Json → Step α)
    (ed : Option E → Json → Step (Option E)) (sc : Scan α E) (j : Json)
    (h1 : j.isNull = false) (h2 : j.isObject = false) :
    (unmarshalScan um ed sc j).err = some (.unmarshalType j.kind "struct scan") := by
  cases j with
  | null => simp [Json.isNull] at h1
  | obj members => simp [Json.isObject] at h2
  | _ => rfl

/-- An errors member that is neither a list nor `null` does not fit. -/
theorem storeErrors_misfit {α E : Type} (ed : Option E → Json → Step (Option E))
    (sc : Scan α E) (v : Json) (h1 : v.isNull = false) (h2 : v.isArray = false) :
    storeErrors ed sc v = ⟨sc, some (.unmarshalType v.kind "gqlerror.List"), none⟩ := by
  cases v with
  | null => simp [Json.isNull] at h1
  | arr items => simp [Json.isArray] at h2
  | _ => rfl

/-- A value that is neither an object nor `null` does not fit the payload. -/
theorem unmarshalPayload_misfit (p : Payload) (v : Json)
    (h1 : v.isNull = false) (h2 : v.isObject = false) :
    unmarshalPayload p v = ⟨p, some (.unmarshalType v.kind "struct payload"), none⟩ := by
  cases v with
  | null => simp [Json.isNull] at h1
  | obj members => simp [Json.isObject] at h2
  | _ => rfl

/-- A value that is neither an object nor `null` does not fit the inner
struct. -/
theorem storeDir_misfit (d : DirField) (v : Json)
    (h1 : v.isNull = false) (h2 : v.isObject = false) :
    storeDir d v = ⟨d, some (.unmarshalType v.kind "struct dir"), none⟩ := by
  cases v with
  | null => simp [Json.isNull] at h1
  | obj members => simp [Json.isObject] at h2
  | _ => rfl

/-- A value that is neither a string, a list nor `null` does not fit the
content. -/
theorem storeContent_misfit (d : DirField) (v : Json)
    (h1 : v.isNull = false) (h2 : v.isString = false) (h3 : v.isArray = false) :
    storeContent d v = ⟨d, some (.unmarshalType v.kind "[]uint8"), none⟩ := by
  cases v with
  | null => simp [Json.isNull] at h1
  | str s => simp [Json.isString] at h2
  | arr items => simp [Json.isArray] at h3
  | _ => rfl

/-- A string that is not base64 does not fit the content. -/
theorem storeContent_corrupt (d : DirField) (s : String) (h : b64Decode s = none) :
    storeContent d (.str s) = ⟨d, some .corruptInput, none⟩ := by
  simp [storeContent, h]

/-- A value that is neither a number nor `null` does not fit a byte. -/
theorem storeByte_misfit (cur : Byte) (v : Json)
    (h1 : v.isNull = false) (h2 : v.isNumber = false) :
    storeByte cur v = ⟨cur, some (.unmarshalType v.kind "uint8"), none⟩ := by
  cases v with
  | null => simp [Json.isNull] at h1
  | num lit => simp [Json.isNumber] at h2
  | _ => rfl

/-- A number that is no `uint8` does not fit a byte. -/
theorem storeByte_range (cur : Byte) (lit : String) (h : parseUint8 lit = none) :
    storeByte cur (.num lit) = ⟨cur, some (.unmarshalType ("number " ++ lit) "uint8"), none⟩ := by
  simp [storeByte, h]

/-- The one member `content` stored into the inner struct. -/
theorem storeDirMembers_content (d : DirField) (v : Json) :
    storeDirMembers d [("content", v)] =
      ⟨(storeContent d v).val, (storeContent d v).saved <|> none, none⟩ := by
  simp [storeDirMembers, fieldMatches_content_content]

/-- The one member `dir` stored into the payload. -/
theorem storePayloadMembers_dir (p : Payload) (v : Json) :
    storePayloadMembers p [("dir", v)] =
      ⟨⟨(storeDir p.Dir v).val⟩, (storeDir p.Dir v).saved <|> none, none⟩ := by
  simp [storePayloadMembers, fieldMatches_dir_dir]

/-- The error the decoder reports for the object whose one member is `data`,
not `null`: that of storing the member. -/
theorem decode_data_only {α E : Type} (um : α → Json → Step α)
    (ed : Option E → Json → Step (Option E)) (data : α) (v : Json)
    (hv : v.isNull = false) :
    (decodeBody um ed ⟨true, data, [], []⟩ (.value (.obj [("data", v)]))).2 =
      (um data v).err := by
  simp only [decodeBody, unmarshalScan, storeMembers, storeMember, fieldMatches_data_data,
    if_true, storeData, hv, Bool.false_eq_true, if_false, Step.err]
  cases (um data v).abort <;> simp

/-- The error the decoder reports for the envelope with a data member, not
`null`, and a list of errors that decode: that of storing the data member. -/
theorem decode_data_errors {α E : Type} (um : α → Json → Step α)
    (ed : Option E → Json → Step (Option E)) (data : α) (v : Json) (es : List Json)
    (hv : v.isNull = false) (hes : ∀ j ∈ es, (ed none j).err = none) :
    (decodeBody um ed ⟨true, data, [], []⟩ (.value (envelope (some v) es))).2 =
      (um data v).err := by
  have h3 := storeEntries_clean ed es hes
  simp only [decodeBody, unmarshalScan, envelope, List.singleton_append, storeMembers,
    storeMember, fieldMatches_data_data, fieldMatches_data_errors, fieldMatches_errors_errors,
    if_true, storeData, hv, Bool.false_eq_true, if_false, Step.err, storeErrors,
    List.nil_append, ite_self]
  cases hab : (um data v).abort with
  | some e => simp
  | none => simp [h3.1, h3.2]


/-- The error the decoder reports for the object whose one member is
`errors`, neither a list nor `null`: a type error. -/
theorem decode_errors_misfit {α E : Type} (um : α → Json → Step α)
    (ed : Option E → Json → Step (Option E)) (sc : Scan α E) (v : Json)
    (h1 : v.isNull = false) (h2 : v.isArray = false) :
    (decodeBody um ed sc (.value (.obj [("errors", v)]))).2 =
      some (.unmarshalType v.kind "gqlerror.List") := by
  simp only [decodeBody, unmarshalScan, storeMembers, storeMember, fieldMatches_data_errors,
    fieldMatches_errors_errors, if_true, Bool.false_eq_true, if_false,
    storeErrors_misfit ed sc v h1 h2, Step.err]
  rfl

/-- The error of storing the object whose one member is `dir` into the
payload: that of storing the member into the inner struct. -/
theorem unmarshalPayload_dir (p : Payload) (v : Json) :
    (unmarshalPayload p (.obj [("dir", v)])).err = (storeDir p.Dir v).saved := by
  simp only [unmarshalPayload, storePayloadMembers_dir, Step.err]
  cases (storeDir p.Dir v).saved <;> rfl

/-- The error of storing the object `{"dir":{"content":v}}` into the payload:
that of storing `v` into the content. -/
theorem unmarshalPayload_content (p : Payload) (v : Json) :
    (unmarshalPayload p (.obj [("dir", .obj [("content", v)])])).err =
      (storeContent p.Dir v).saved := by
  rw [unmarshalPayload_dir]
  simp only [storeDir, storeDirMembers_content]
  cases (storeContent p.Dir v).saved <;> rfl

/-- The error of storing a list of one element into the content: that of
storing the element into a byte. -/
theorem storeContent_one (d : DirField) (v : Json) :
    (storeContent d (.arr [v])).saved = (storeByte ((d.Content ++ d.spare).headD 0) v).saved := by
  simp only [storeContent, List.isEmpty_cons, Bool.false_eq_true, if_false, storeBytes]
  cases (storeByte ((d.Content ++ d.spare).headD 0) v).saved <;> rfl

/-- An error of the decoder that is not end-of-stream is what `post`
returns. -/
theorem post_of_decode_error {D α E : Type} (env : Env D) (um : α → Json → Step α)
    (ed : Option E → Json → Step (Option E)) (c : Client) (query : String) (vars : Vars)
    (data : α) (body : Json) (res : Response) (e : GoError)
    (hm : marshalEnvelope query vars = .ok body)
    (hu : env.newRequestErr c.endpoint = none)
    (hd : env.clientDo c.client (newRequest c.endpoint body) = .ok res)
    (hs : res.status = 200)
    (he : (decodeBody um ed ⟨true, data, [], []⟩ res.body).2 = some e)
    (hne : e.isEOF = false) :
    (c.post env um ed query vars data).err = some (.err e) := by
  rw [post_of_ok env um ed c query vars data body res hm hu hd hs, he]
  simp [fatal, hne]


/-- C7, as amended. For a 200 response `post` returns the decoder's error
when the body is cut off inside its first JSON value, when it is not JSON
there, and when the storing of that value reports an error other than
end-of-stream. The storing reports a type error for a value that is neither an
object nor `null` and for an errors member that is neither a list nor `null`;
with the result type of `Dir` it reports one for a data member or a dir member
that is neither an object nor `null` (also when a list of errors that decode
follows the data member), for a content member that is neither a string, a
list nor `null`, and for a list element that is no byte, and it reports the
base64 error for a content string that is not base64. The one failure `post`
lets pass is end-of-stream, which the decoder reports for a body that is empty
or holds nothing but white space. -/
theorem post_decode_error {D α E : Type} (env : Env D) (um : α → Json → Step α)
    (ed : Option E → Json → Step (Option E)) (c : Client) (query : String) (vars : Vars)
    (data : α) (input : DirInput) (body : Json) (res : Response)
    (hm : marshalEnvelope query vars = .ok body)
    (hu : env.newRequestErr c.endpoint = none)
    (hd : ∀ req, env.clientDo c.client req = .ok res)
    (hs : res.status = 200) :
    (res.body = .truncated →
        (c.post env um ed query vars data).err = some (.err .unexpectedEOF)) ∧
      (∀ msg, res.body = .malformed msg →
        (c.post env um ed query vars data).err = some (.err (.malformedJSON msg))) ∧
      (∀ j e, res.body = .value j →
        (unmarshalScan um ed ⟨true, data, [], []⟩ j).err = some e → e.isEOF = false →
        (c.post env um ed query vars data).err = some (.err e)) ∧
      (∀ j, res.body = .value j → j.isNull = false → j.isObject = false →
        (c.post env um ed query vars data).err =
          some (.err (.unmarshalType j.kind "struct scan"))) ∧
      (∀ v, res.body = .value (.obj [("errors", v)]) → v.isNull = false → v.isArray = false →
        (c.post env um ed query vars data).err =
          some (.err (.unmarshalType v.kind "gqlerror.List"))) ∧
      (∀ v, res.body = .value (.obj [("data", v)]) → v.isNull = false → v.isObject = false →
        (c.post env unmarshalPayload ed dirQuery (dirVars input) ⟨⟨[], []⟩⟩).err =
          some (.err (.unmarshalType v.kind "struct payload"))) ∧
      (∀ v es, res.body = .value (envelope (some v) es) →
        v.isNull = false → v.isObject = false → (∀ j ∈ es, (ed none j).err = none) →
        (c.post env unmarshalPayload ed dirQuery (dirVars input) ⟨⟨[], []⟩⟩).err =
          some (.err (.unmarshalType v.kind "struct payload"))) ∧
      (∀ v, res.body = .value (.obj [("data", .obj [("dir", v)])]) →
        v.isNull = false → v.isObject = false →
        (c.post env unmarshalPayload ed dirQuery (dirVars input) ⟨⟨[], []⟩⟩).err =
          some (.err (.unmarshalType v.kind "struct dir"))) ∧
      (∀ v, res.body = .value (.obj [("data", .obj [("dir", .obj [("content", v)])])]) →
        v.isNull = false → v.isString = false → v.isArray = false →
        (c.post env unmarshalPayload ed dirQuery (dirVars input) ⟨⟨[], []⟩⟩).err =
          some (.err (.unmarshalType v.kind "[]uint8"))) ∧
      (∀ s, res.body = .value (dirBody s) → b64Decode s = none →
        (c.post env unmarshalPayload ed dirQuery (dirVars input) ⟨⟨[], []⟩⟩).err =
          some (.err .corruptInput)) ∧
      (∀ v, res.body =
          .value (.obj [("data", .obj [("dir", .obj [("content", .arr [v])])])]) →
        v.isNull = false → v.isNumber = false →
        (c.post env unmarshalPayload ed dirQuery (dirVars input) ⟨⟨[], []⟩⟩).err =
          some (.err (.unmarshalType v.kind "uint8"))) ∧
      (∀ lit, res.body =
          .value (.obj [("data", .obj [("dir", .obj [("content", .arr [.num lit])])])]) →
        parseUint8 lit = none →
        (c.post env unmarshalPayload ed dirQuery (dirVars input) ⟨⟨[], []⟩⟩).err =
          some (.err (.unmarshalType ("number " ++ lit) "uint8"))) ∧
      (∀ n, res.body = .blank n →
        (c.post env um ed query vars data).err = (none : Option (Failure E))) := by
  have hp := post_of_ok env um ed c query vars data body res hm hu (hd _) hs
  have gen := fun e => post_of_decode_error env um ed c query vars data body res e hm hu
    (hd _) hs
  have dir := fun e => post_of_decode_error env unmarshalPayload ed c dirQuery (dirVars input)
    ⟨⟨[], []⟩⟩ _ res e (marshal_dir input) hu (hd _) hs
  refine ⟨?_, ?_, ?_, ?_, ?_, ?_, ?_, ?_, ?_, ?_, ?_, ?_, ?_⟩
  · intro hb
    exact gen _ (by rw [hb]; rfl) rfl
  · intro msg hb
    exact gen _ (by rw [hb]; rfl) rfl
  · intro j e hb he hne
    exact gen _ (by rw [hb]; exact he) hne
  · intro j hb h1 h2
    exact gen _ (by rw [hb]; exact unmarshalScan_misfit um ed _ j h1 h2) rfl
  · intro v hb h1 h2
    exact gen _ (by rw [hb]; exact decode_errors_misfit um ed _ v h1 h2) rfl
  · intro v hb h1 h2
    exact dir _ (by rw [hb, decode_data_only _ _ _ v h1, unmarshalPayload_misfit _ v h1 h2]; rfl)
      rfl
  · intro v es hb h1 h2 hes
    exact dir _ (by
      rw [hb, decode_data_errors _ _ _ v es h1 hes, unmarshalPayload_misfit _ v h1 h2]; rfl) rfl
  · intro v hb h1 h2
    exact dir _ (by
      rw [hb, decode_data_only _ _ _ (.obj [("dir", v)]) rfl, unmarshalPayload_dir,
        storeDir_misfit _ v h1 h2])
      rfl
  · intro v hb h1 h2 h3
    exact dir _ (by
      rw [hb, decode_data_only _ _ _ (.obj [("dir", .obj [("content", v)])]) rfl,
        unmarshalPayload_content, storeContent_misfit _ v h1 h2 h3]) rfl
  · intro s hb h1
    exact dir _ (by
      rw [hb]
      show (decodeBody unmarshalPayload ed ⟨true, ⟨⟨[], []⟩⟩, [], []⟩
        (.value (.obj [("data", .obj [("dir", .obj [("content", .str s)])])]))).2 = _
      rw [decode_data_only _ _ _ (.obj [("dir", .obj [("content", .str s)])]) rfl,
        unmarshalPayload_content, storeContent_corrupt _ s h1]) rfl
  · intro v hb h1 h2
    exact dir _ (by
      rw [hb, decode_data_only _ _ _ (.obj [("dir", .obj [("content", .arr [v])])]) rfl,
        unmarshalPayload_content, storeContent_one, storeByte_misfit _ v h1 h2]) rfl
  · intro lit hb h1
    exact dir _ (by
      rw [hb, decode_data_only _ _ _ (.obj [("dir", .obj [("content", .arr [.num lit])])]) rfl,
        unmarshalPayload_content, storeContent_one, storeByte_range _ lit h1]) rfl
  · intro n hb
    simp [hp, hb, decodeBody, fatal, GoError.isEOF]

/-- C7, as amended, at the 200 response `{"data":"x"}`, whose data member is a
string where the result type is a struct. -/
theorem post_decode_error_witness :
    ((New "" "tok").post (answering ⟨200, .value (.obj [("data", .str "x")])⟩)
        unmarshalPayload messageEntry dirQuery (dirVars ⟨"atlas", "v1"⟩) ⟨⟨[], []⟩⟩).err =
      some (.err (.unmarshalType "string" "struct payload")) :=
  (post_decode_error (answering ⟨200, .value (.obj [("data", .str "x")])⟩)
    unmarshalPayload messageEntry (New "" "tok") dirQuery (dirVars ⟨"atlas", "v1"⟩)
    ⟨⟨[], []⟩⟩ ⟨"atlas", "v1"⟩ _ _ rfl rfl (fun _ => rfl) rfl).2.2.2.2.2.1 _ rfl rfl rfl

/-- C7, the claim as written fails: a 200 response whose body is one byte of
white space is not empty and holds no envelope (the decoder reports
end-of-stream), and `post` returns no error. -/
theorem post_white_space_body :
    (Body.blank 1).isEmpty = false ∧
    (decodeBody unmarshalPayload messageEntry ⟨true, ⟨⟨[], []⟩⟩, [], []⟩ (.blank 1)).2 = some .eof ∧
    ((New "" "tok").post (answering ⟨200, .blank 1⟩) unmarshalPayload messageEntry dirQuery
        (dirVars ⟨"atlas", "v1"⟩) ⟨⟨[], []⟩⟩).err = none := by
  decide


/-! ## Failures of the transport -/

/-- The operation `http.Client.Do` names in its errors for a POST. -/
theorem urlErrorOp_post : urlErrorOp "POST" = "Post" := by decide

/-- When the transport fails on the first hop, `http.Client.Do` returns the
`*url.Error` that wraps the failure, after that one round trip. -/
theorem httpDo_of_error {D : Type} (net : Net D) (hc : HttpClient) (req : Request Json)
    (e : GoError) (h : net.transport (hc.transport.RoundTrip id req) = .error e) :
    httpDo net hc req =
      (.error (.urlError (urlErrorOp req.method)
        (sendError (decide (0 < hc.timeout) && net.timedOut (hc.transport.RoundTrip id req)) e)),
        [hc.transport.RoundTrip id req]) := by
  simp only [roundTripper.RoundTrip, id] at h
  simp [httpDo, doHops, roundTripper.RoundTrip, h]

/-- Outside a timeout, `http.Client.Do` wraps the error of the transport
itself, unless that is the TLS record header of an HTTP answer. -/
theorem sendError_plain (e : GoError) (h : e ≠ .tlsRecordHeader "HTTP/") :
    sendError false e = e := by
  cases e with
  | tlsRecordHeader hdr =>
    have hne : hdr ≠ "HTTP/" := fun hh => h (by rw [hh])
    simp [sendError, hne]
  | _ => rfl

/-- C8, as amended. When every round trip of the transport fails with `e`,
`post` returns what `http.Client.Do` returns and nothing else: the
`*url.Error` with operation "Post" that wraps `e` (wraps, in the place of
`e`, the timeout error when the client's timeout has fired and the scheme
mismatch error for the TLS record header of an HTTP answer). It has called
`http.Client.Do` once, the transport has been invoked once, and the value
behind the `data` pointer is as it was. `Dir` returns the error its call of
`post` returns, of the same form, no directory, and does not call the
unarchiver; it too leaves one call of `http.Client.Do` and one round trip. -/
theorem transport_error_returned {D α E : Type} (net : Net D) (um : α → Json → Step α)
    (ed : Option E → Json → Step (Option E)) (c : Client) (query : String) (vars : Vars)
    (data : α) (input : DirInput) (body : Json) (e : GoError)
    (hm : marshalEnvelope query vars = .ok body)
    (hu : net.newRequestErr c.endpoint = none)
    (hd : ∀ req, net.transport req = .error e) :
    (c.post net.env um ed query vars data).err =
        some (.err (.urlError "Post" (sendError (decide (0 < c.client.timeout) &&
          net.timedOut (c.client.transport.RoundTrip id (newRequest c.endpoint body))) e))) ∧
      ((∀ req, net.timedOut req = false) → e ≠ .tlsRecordHeader "HTTP/" →
        (c.post net.env um ed query vars data).err = some (.err (.urlError "Post" e)) ∧
        (c.Dir net.env ed input).err =
          (some (.err (.urlError "Post" e)) : Option (Failure E))) ∧
      (c.post net.env um ed query vars data).sent = [newRequest c.endpoint body] ∧
      (c.post net.env um ed query vars data).roundTrips =
        [c.client.transport.RoundTrip id (newRequest c.endpoint body)] ∧
      (c.post net.env um ed query vars data).data = data ∧
      (c.Dir net.env ed input).err =
        (c.post net.env unmarshalPayload ed dirQuery (dirVars input) ⟨⟨[], []⟩⟩).err ∧
      (∃ e', (c.Dir net.env ed input).err = some (.err (.urlError "Post" e'))) ∧
      (c.Dir net.env ed input).dir = none ∧
      (c.Dir net.env ed input).unarchived = [] ∧
      (c.Dir net.env ed input).sent.length = 1 ∧
      (c.Dir net.env ed input).roundTrips.length = 1 ∧
      (∃ x, net.env.clientDo c.client (newRequest c.endpoint body) = .error x ∧
        (c.post net.env um ed query vars data).err = some (.err x)) := by
  have hdo : ∀ b : Json, httpDo net c.client (newRequest c.endpoint b) =
      (.error (.urlError "Post" (sendError (decide (0 < c.client.timeout) &&
        net.timedOut (c.client.transport.RoundTrip id (newRequest c.endpoint b))) e)),
        [c.client.transport.RoundTrip id (newRequest c.endpoint b)]) := by
    intro b
    rw [httpDo_of_error net c.client (newRequest c.endpoint b) e (hd _)]
    rfl
  have hp : ∀ {β : Type} (um' : β → Json → Step β) (q : String) (vs : Vars) (b : Json) (x : β),
      marshalEnvelope q vs = .ok b →
      c.post net.env um' ed q vs x =
        ⟨some (.err (.urlError "Post" (sendError (decide (0 < c.client.timeout) &&
          net.timedOut (c.client.transport.RoundTrip id (newRequest c.endpoint b))) e))), x,
          ⟨[newRequest c.endpoint b],
            [c.client.transport.RoundTrip id (newRequest c.endpoint b)], []⟩⟩ := by
    intro β um' q vs b x hq
    have hc : net.env.clientDo c.client (newRequest c.endpoint b) =
        .error (.urlError "Post" (sendError (decide (0 < c.client.timeout) &&
          net.timedOut (c.client.transport.RoundTrip id (newRequest c.endpoint b))) e)) := by
      show (httpDo net c.client (newRequest c.endpoint b)).1 = _
      rw [hdo b]
    have hr : net.env.roundTrips c.client (newRequest c.endpoint b) =
        [c.client.transport.RoundTrip id (newRequest c.endpoint b)] := by
      show (httpDo net c.client (newRequest c.endpoint b)).2 = _
      rw [hdo b]
    rw [post_of_error net.env um' ed c q vs x b _ hq hu hc, hr]
  have h0 : net.env.clientDo c.client (newRequest c.endpoint body) =
      .error (.urlError "Post" (sendError (decide (0 < c.client.timeout) &&
        net.timedOut (c.client.transport.RoundTrip id (newRequest c.endpoint body))) e)) := by
    show (httpDo net c.client (newRequest c.endpoint body)).1 = _
    rw [hdo body]
  have h1 := hp um query vars body data hm
  have h2 := hp unmarshalPayload dirQuery (dirVars input) _ ⟨⟨[], []⟩⟩ (marshal_dir input)
  have h3 := dir_of_post_error net.env ed c input _ (by rw [h2])
  refine ⟨by rw [h1], ?_, by rw [h1]; rfl, by rw [h1]; rfl, by rw [h1], ?_, ?_, ?_, ?_, ?_, ?_,
    ⟨_, h0, by rw [h1]⟩⟩
  · intro ht hne
    constructor
    · rw [h1]
      simp [ht, sendError_plain e hne]
    · rw [h3]
      simp [ht, sendError_plain e hne]
  · rw [h3, h2]
  · exact ⟨_, by rw [h3]⟩
  · rw [h3]
  · rw [h3, h2]
    rfl
  · rw [h3, h2]
    rfl
  · rw [h3, h2]
    rfl

/-- C8, as amended, at a transport that fails with a dial error. -/
theorem transport_error_returned_witness :
    ((New "" "tok").Dir (failing (.other "dial tcp: connection refused")) messageEntry
        ⟨"atlas", "v1"⟩).err =
      some (.err (.urlError "Post" (.other "dial tcp: connection refused"))) ∧
    ((New "" "tok").Dir (failing (.other "dial tcp: connection refused")) messageEntry
        ⟨"atlas", "v1"⟩).dir = none ∧
    ((New "" "tok").Dir (failing (.other "dial tcp: connection refused")) messageEntry
        ⟨"atlas", "v1"⟩).roundTrips.length = 1 :=
  ⟨((transport_error_returned (failingNet (.other "dial tcp: connection refused"))
      unmarshalPayload messageEntry (New "" "tok") dirQuery (dirVars ⟨"atlas", "v1"⟩)
      ⟨⟨[], []⟩⟩ ⟨"atlas", "v1"⟩ _ _ rfl rfl (fun _ => rfl)).2.1 (fun _ => rfl)
      (by decide)).2,
   (transport_error_returned (failingNet (.other "dial tcp: connection refused"))
      unmarshalPayload messageEntry (New "" "tok") dirQuery (dirVars ⟨"atlas", "v1"⟩)
      ⟨⟨[], []⟩⟩ ⟨"atlas", "v1"⟩ _ _ rfl rfl (fun _ => rfl)).2.2.2.2.2.2.2.1,
   (transport_error_returned (failingNet (.other "dial tcp: connection refused"))
      unmarshalPayload messageEntry (New "" "tok") dirQuery (dirVars ⟨"atlas", "v1"⟩)
      ⟨⟨[], []⟩⟩ ⟨"atlas", "v1"⟩ _ _ rfl rfl (fun _ => rfl)).2.2.2.2.2.2.2.2.2.2.1⟩

/-- C8, the claim as written fails: when the transport fails with a dial
error `e`, `post` and `Dir` return the `*url.Error` in which `http.Client.Do`
wraps `e`, not `e` as it is. -/
theorem transport_error_wrapped :
    ((New "" "tok").post (failing (.other "dial tcp: connection refused")) unmarshalPayload
        messageEntry dirQuery (dirVars ⟨"atlas", "v1"⟩) ⟨⟨[], []⟩⟩).err =
      some (.err (.urlError "Post" (.other "dial tcp: connection refused"))) ∧
    ((New "" "tok").post (failing (.other "dial tcp: connection refused")) unmarshalPayload
        messageEntry dirQuery (dirVars ⟨"atlas", "v1"⟩) ⟨⟨[], []⟩⟩).err ≠
      some (.err (.other "dial tcp: connection refused")) ∧
    ((New "" "tok").Dir (failing (.other "dial tcp: connection refused")) messageEntry
        ⟨"atlas", "v1"⟩).err ≠ some (.err (.other "dial tcp: connection refused")) := by
  decide


/-- The requests `post` sends: none, or the one it built. -/
theorem post_sent {D α E : Type} (env : Env D) (um : α → Json → Step α)
    (ed : Option E → Json → Step (Option E)) (c : Client) (query : String) (vars : Vars)
    (data : α) (body : Json) (hm : marshalEnvelope query vars = .ok body) :
    (c.post env um ed query vars data).sent =
      if env.newRequestErr c.endpoint = none then [newRequest c.endpoint body] else [] := by
  cases hu : env.newRequestErr c.endpoint with
  | some e => simp [Client.post, Outcome.sent, hm, hu]
  | none =>
    cases hd : env.clientDo c.client (newRequest c.endpoint body) with
    | error e => simp [post_of_error env um ed c query vars data body e hm hu hd, Outcome.sent]
    | ok res =>
      by_cases hs : res.status = 200
      · rw [post_of_ok env um ed c query vars data body res hm hu hd hs]
        simp only [if_true, Outcome.sent]
        split
        · rfl
        · split <;> rfl
      · simp [Client.post, Env.callDo, Outcome.sent, hm, hu, hd, hs]

/-- The requests `Dir` sends are those of its call of `post`. -/
theorem dir_sent {D E : Type} (env : Env D) (ed : Option E → Json → Step (Option E))
    (c : Client) (input : DirInput) :
    (c.Dir env ed input).sent =
      (c.post env unmarshalPayload ed dirQuery (dirVars input) (⟨⟨[], []⟩⟩ : Payload)).sent := by
  unfold Client.Dir
  simp only [DirOutcome.sent, Outcome.sent]
  split
  · rfl
  · simp [Env.callUnarchive]

/-- C9. Every request `Dir` issues is a POST to the client's endpoint whose
body is the JSON object with exactly the members `query`, the fixed getDir
query text, and `variables`, whose one member `input` holds `name` and, when
the tag is not empty, `tag`; and when the endpoint is accepted as a URL, `Dir`
issues exactly one request. -/
theorem dir_request {D E : Type} (env : Env D) (ed : Option E → Json → Step (Option E))
    (c : Client) (input : DirInput) :
    (∀ req ∈ (c.Dir env ed input).sent,
      req.method = "POST" ∧ req.url = c.endpoint ∧
      ∃ members, req.body = .obj [
          ("query", .str "\n\t\tquery getDir($input: DirInput!) \x7b\n\t\t   dir(input: $input) \x7b\n\t\t     content\n\t\t   \x7d\n\t\t\x7d"),
          ("variables", .obj [("input", .obj members)])] ∧
        (input.Tag = "" → members = [("name", .str input.Name)]) ∧
        (input.Tag ≠ "" → members = [("name", .str input.Name), ("tag", .str input.Tag)])) ∧
      (env.newRequestErr c.endpoint = none → (c.Dir env ed input).sent.length = 1) := by
  rw [dir_sent, post_sent env unmarshalPayload ed c dirQuery (dirVars input) ⟨⟨[], []⟩⟩ _
    (marshal_dir input)]
  constructor
  · intro req hreq
    split at hreq
    · simp only [List.mem_singleton] at hreq
      subst hreq
      refine ⟨rfl, rfl, _, rfl, ?_, ?_⟩
      · intro ht
        simp [ht]
      · intro ht
        simp [ht]
    · simp at hreq
  · intro hu
    simp [hu]

/-- C10. `New` returns a client whose endpoint is the default URL when the
argument is empty and the argument otherwise, whose transport holds the token,
and whose timeout is 30 seconds. -/
theorem new_client (e t : String) :
    (e = "" → (New e t).endpoint = "https://api.atlasgo.cloud/query") ∧
      (e ≠ "" → (New e t).endpoint = e) ∧
      (New e t).client.transport.token = t ∧
      (New e t).client.timeout = 30 * second ∧
      (New e t).client.timeout = 30000000000 := by
  refine ⟨?_, ?_, rfl, ?_, ?_⟩
  · intro h
    simp [New, h, defaultURL]
  · intro h
    simp [New, h]
  · simp [New, Nat.mul_comm]
  · simp [New, second]

end Cloudapi
